import Mathlib

/-!
# organic-chaincode: a shallow embedding

The chaincode `organic-chaincode.go` stores `Organic` records, serialised with
`encoding/json`, in the world state of a Hyperledger Fabric peer.  This file
embeds

* Go strings and byte slices as lists of bytes,
* the world state the chaincode sees through `shim.ChaincodeStubInterface`
  (`GetState`, `PutState`, `GetStateByRange`),
* `json.Marshal` / `json.Unmarshal` at the type `Organic`,
* the five handlers and `Invoke`,

and then proves the properties of the handlers.
-/

namespace OrganicChaincode

/-! ## Bytes and strings -/

/-- One byte. -/
abbrev Byte := Fin 256

/-- A Go `string` (or `[]byte`): an arbitrary sequence of bytes, not
necessarily valid UTF-8. -/
abbrev GoString := List Byte

/-- The bytes of an ASCII literal of the source text. -/
def B (s : String) : GoString := s.data.map (fun c => Fin.ofNat c.toNat)

/-- Go's `<` on strings: bytewise lexicographic order. -/
def strLt : GoString → GoString → Bool
  | [], [] => false
  | [], _ :: _ => true
  | _ :: _, [] => false
  | a :: as, b :: bs =>
    if a.val < b.val then true
    else if b.val < a.val then false
    else strLt as bs

/-- Go's `strconv.Itoa` on a non-negative integer. -/
def Itoa (n : Nat) : GoString := (Nat.toDigits 10 n).map (fun c => Fin.ofNat c.toNat)

/-! ## The record type -/

/-- Go struct `Organic`; the JSON tags are `shipment`, `timestamp`,
`location`, `holder`. -/
structure Organic where
  Shipment : GoString
  Timestamp : GoString
  Location : GoString
  Holder : GoString
deriving DecidableEq

/-- The zero value `Organic{}`. -/
def Organic.zero : Organic := ⟨[], [], [], []⟩

/-! ## UTF-8 (Go package `unicode/utf8`) -/

/-- Go's `utf8.RuneError`, U+FFFD. -/
def RuneError : Nat := 0xFFFD

/-- Continuation byte `0x80..0xBF`. -/
def isCont (b : Byte) : Bool := decide (0x80 ≤ b.val) && decide (b.val ≤ 0xBF)

/-- Go's `utf8.DecodeRune`: the first rune of the input and its width in
bytes; `(RuneError, 1)` for a byte that starts no valid encoding and
`(RuneError, 0)` for the empty input. Shifts and masks are written as
arithmetic. -/
def DecodeRune : GoString → Nat × Nat
  | [] => (RuneError, 0)
  | s0 :: t =>
    if s0.val < 0x80 then (s0.val, 1)
    else if s0.val < 0xC2 then (RuneError, 1)
    else if s0.val < 0xE0 then
      match t with
      | s1 :: _ =>
        if isCont s1 then ((s0.val % 32) * 64 + s1.val % 64, 2) else (RuneError, 1)
      | [] => (RuneError, 1)
    else if s0.val < 0xF0 then
      match t with
      | s1 :: s2 :: _ =>
        if decide ((if s0.val = 0xE0 then 0xA0 else 0x80) ≤ s1.val)
            && decide (s1.val ≤ (if s0.val = 0xED then 0x9F else 0xBF))
            && isCont s2 then
          ((s0.val % 16) * 4096 + (s1.val % 64) * 64 + s2.val % 64, 3)
        else (RuneError, 1)
      | _ => (RuneError, 1)
    else if s0.val < 0xF5 then
      match t with
      | s1 :: s2 :: s3 :: _ =>
        if decide ((if s0.val = 0xF0 then 0x90 else 0x80) ≤ s1.val)
            && decide (s1.val ≤ (if s0.val = 0xF4 then 0x8F else 0xBF))
            && isCont s2 && isCont s3 then
          ((s0.val % 8) * 262144 + (s1.val % 64) * 4096 + (s2.val % 64) * 64 + s3.val % 64, 4)
        else (RuneError, 1)
      | _ => (RuneError, 1)
    else (RuneError, 1)

/-- Go's `utf8.EncodeRune`: the UTF-8 encoding of a rune; surrogates and
out-of-range values are written as U+FFFD. -/
def EncodeRune (r : Nat) : GoString :=
  if r < 0x80 then [Fin.ofNat r]
  else if r < 0x800 then [Fin.ofNat (0xC0 + r / 64), Fin.ofNat (0x80 + r % 64)]
  else if 0x10FFFF < r ∨ (0xD800 ≤ r ∧ r ≤ 0xDFFF) then [0xEF, 0xBF, 0xBD]
  else if r < 0x10000 then
    [Fin.ofNat (0xE0 + r / 4096), Fin.ofNat (0x80 + (r / 64) % 64), Fin.ofNat (0x80 + r % 64)]
  else
    [Fin.ofNat (0xF0 + r / 262144), Fin.ofNat (0x80 + (r / 4096) % 64),
     Fin.ofNat (0x80 + (r / 64) % 64), Fin.ofNat (0x80 + r % 64)]

/-- Go's `utf8.Valid`, with the input length as fuel. -/
def utf8ValidLoop : Nat → GoString → Bool
  | 0, s => s.isEmpty
  | _ + 1, [] => true
  | n + 1, b :: t =>
    if b.val < 0x80 then utf8ValidLoop n t
    else
      let size := (DecodeRune (b :: t)).2
      if size = 1 then false else utf8ValidLoop n (t.drop (size - 1))

/-- Go's `utf8.Valid`. -/
def utf8Valid (s : GoString) : Bool := utf8ValidLoop s.length s

/-! ## `json.Marshal` at type `Organic` -/

/-- The table `hex = "0123456789abcdef"` of `encoding/json`. -/
def hex (n : Nat) : Byte := if n < 10 then Fin.ofNat (48 + n) else Fin.ofNat (87 + n)

/-- The table `htmlSafeSet` of `encoding/json`: the ASCII bytes written
without escaping when HTML escaping is on (the default of `json.Marshal`). -/
def htmlSafe (b : Byte) : Bool :=
  decide (0x20 ≤ b.val) && decide (b.val < 0x80) && decide (b.val ≠ 0x22) && decide (b.val ≠ 0x26)
    && decide (b.val ≠ 0x3C) && decide (b.val ≠ 0x3E) && decide (b.val ≠ 0x5C)

/-- The escape written for an ASCII byte outside `htmlSafeSet`. -/
def escapeByte (b : Byte) : GoString :=
  if b.val = 0x5C ∨ b.val = 0x22 then [0x5C, b]
  else if b.val = 0x0A then B "\\n"
  else if b.val = 0x0D then B "\\r"
  else if b.val = 0x09 then B "\\t"
  else B "\\u00" ++ [hex (b.val / 16), hex (b.val % 16)]

/-- The loop of `encodeState.string` (with `escapeHTML`), emitting the output
for the input from the current position on; the input length is the fuel. -/
def escapeLoop : Nat → GoString → GoString
  | 0, _ => []
  | _ + 1, [] => []
  | n + 1, b :: t =>
    if b.val < 0x80 then
      (if htmlSafe b then [b] else escapeByte b) ++ escapeLoop n t
    else
      let c := (DecodeRune (b :: t)).1
      let size := (DecodeRune (b :: t)).2
      if c = RuneError ∧ size = 1 then B "\\ufffd" ++ escapeLoop n t
      else if c = 0x2028 ∨ c = 0x2029 then
        B "\\u202" ++ [hex (c % 16)] ++ escapeLoop n (t.drop (size - 1))
      else (b :: t).take size ++ escapeLoop n (t.drop (size - 1))

/-- The function `encodeState.string`: a Go string as a JSON string literal. -/
def encodeString (s : GoString) : GoString :=
  [0x22] ++ escapeLoop s.length s ++ [0x22]

/-- The call `json.Marshal(organic)`: the fields in declaration order under
their JSON tags. For a struct of strings the returned error is always nil,
so only the bytes are modelled. -/
def Marshal (o : Organic) : GoString :=
  B "\x7b\"shipment\":" ++ encodeString o.Shipment
    ++ B ",\"timestamp\":" ++ encodeString o.Timestamp
    ++ B ",\"location\":" ++ encodeString o.Location
    ++ B ",\"holder\":" ++ encodeString o.Holder ++ B "\x7d"

/-! ## JSON text (the scanner and `unquote` of `encoding/json`) -/

/-- A parsed JSON value; a number keeps its text. -/
inductive JSON where
  | null : JSON
  | bool (b : Bool) : JSON
  | num (raw : GoString) : JSON
  | str (s : GoString) : JSON
  | arr (elems : List JSON) : JSON
  | obj (members : List (GoString × JSON)) : JSON

/-- Go's `isSpace` of the JSON scanner. -/
def isSpace (c : Byte) : Bool :=
  decide (c.val = 0x20) || decide (c.val = 0x09) || decide (c.val = 0x0D) || decide (c.val = 0x0A)

/-- Skips leading JSON white space. -/
def skipWS : GoString → GoString
  | [] => []
  | c :: t => if isSpace c then skipWS t else c :: t

/-- The value of a hexadecimal digit. -/
def hexVal (c : Byte) : Option Nat :=
  if 0x30 ≤ c.val ∧ c.val ≤ 0x39 then some (c.val - 0x30)
  else if 0x61 ≤ c.val ∧ c.val ≤ 0x66 then some (c.val - 0x61 + 10)
  else if 0x41 ≤ c.val ∧ c.val ≤ 0x46 then some (c.val - 0x41 + 10)
  else none

/-- Go's `getu4`: the rune of a leading `\uXXXX`, or `none` (Go: -1). -/
def getu4 : GoString → Option Nat
  | b :: u :: h1 :: h2 :: h3 :: h4 :: _ =>
    if b.val = 0x5C ∧ u.val = 0x75 then
      match hexVal h1, hexVal h2, hexVal h3, hexVal h4 with
      | some a, some b, some c, some d => some (((a * 16 + b) * 16 + c) * 16 + d)
      | _, _, _, _ => none
    else none
  | _ => none

/-- Puts decoded bytes in front of the decoded remainder. -/
def emit (bs : GoString) : Option (GoString × GoString) → Option (GoString × GoString)
  | none => none
  | some (s, rest) => some (bs ++ s, rest)

/-- A JSON string literal, read from just after its opening quote: the
decoded contents and the input after the closing quote. It accepts what the
scanner accepts (no raw byte below 0x20, only the escapes of JSON) and decodes
as `unquoteBytes` does (escapes resolved, surrogate pairs combined, invalid
UTF-8 replaced by U+FFFD). -/
def readString : Nat → GoString → Option (GoString × GoString)
  | 0, _ => none
  | _ + 1, [] => none
  | n + 1, c :: t =>
    if c.val = 0x22 then some ([], t)
    else if c.val = 0x5C then
      match t with
      | [] => none
      | e :: t1 =>
        if e.val = 0x22 ∨ e.val = 0x5C ∨ e.val = 0x2F then emit [e] (readString n t1)
        else if e.val = 0x62 then emit [0x08] (readString n t1)
        else if e.val = 0x66 then emit [0x0C] (readString n t1)
        else if e.val = 0x6E then emit [0x0A] (readString n t1)
        else if e.val = 0x72 then emit [0x0D] (readString n t1)
        else if e.val = 0x74 then emit [0x09] (readString n t1)
        else if e.val = 0x75 then
          match getu4 (c :: t) with
          | none => none
          | some rr =>
            if 0xD800 ≤ rr ∧ rr < 0xE000 then
              match getu4 (t1.drop 4) with
              | some rr1 =>
                if rr < 0xDC00 ∧ 0xDC00 ≤ rr1 ∧ rr1 < 0xE000 then
                  emit (EncodeRune ((rr - 0xD800) * 1024 + (rr1 - 0xDC00) + 0x10000))
                    (readString n (t1.drop 10))
                else emit (EncodeRune RuneError) (readString n (t1.drop 4))
              | none => emit (EncodeRune RuneError) (readString n (t1.drop 4))
            else emit (EncodeRune rr) (readString n (t1.drop 4))
        else none
    else if c.val < 0x20 then none
    else if c.val < 0x80 then emit [c] (readString n t)
    else
      emit (EncodeRune (DecodeRune (c :: t)).1)
        (readString n (t.drop ((DecodeRune (c :: t)).2 - 1)))

/-- Decimal digit. -/
def isDigit (c : Byte) : Bool := decide (0x30 ≤ c.val) && decide (c.val ≤ 0x39)

/-- Splits off the leading decimal digits. -/
def takeDigits : GoString → GoString × GoString
  | [] => ([], [])
  | c :: t => if isDigit c then ((takeDigits t).1.cons c, (takeDigits t).2) else ([], c :: t)

/-- The exponent part of a number, if one follows. -/
def scanExp (s : GoString) : Option (GoString × GoString) :=
  match s with
  | e :: t =>
    if e.val = 0x65 ∨ e.val = 0x45 then
      match t with
      | sg :: t1 =>
        if sg.val = 0x2B ∨ sg.val = 0x2D then
          if (takeDigits t1).1 = [] then none
          else some (e :: sg :: (takeDigits t1).1, (takeDigits t1).2)
        else if (takeDigits t).1 = [] then none
        else some (e :: (takeDigits t).1, (takeDigits t).2)
      | [] => none
    else some ([], s)
  | [] => some ([], s)

/-- The fraction and exponent parts of a number, if they follow. -/
def scanFrac (s : GoString) : Option (GoString × GoString) :=
  match s with
  | d :: t =>
    if d.val = 0x2E then
      if (takeDigits t).1 = [] then none
      else (scanExp (takeDigits t).2).map (fun p => (d :: (takeDigits t).1 ++ p.1, p.2))
    else scanExp s
  | [] => some ([], s)

/-- The integer part, then fraction and exponent, of a number without sign. -/
def scanInt (s : GoString) : Option (GoString × GoString) :=
  match s with
  | d :: t =>
    if d.val = 0x30 then (scanFrac t).map (fun p => (d :: p.1, p.2))
    else if isDigit d then
      (scanFrac (takeDigits t).2).map (fun p => (d :: (takeDigits t).1 ++ p.1, p.2))
    else none
  | [] => none

/-- A JSON number: its text and the input after it. -/
def scanNumber (s : GoString) : Option (GoString × GoString) :=
  match s with
  | c :: t => if c.val = 0x2D then (scanInt t).map (fun p => (c :: p.1, p.2)) else scanInt s
  | [] => none

/-- Strips a literal prefix. -/
def stripLit : GoString → GoString → Option GoString
  | [], s => some s
  | _ :: _, [] => none
  | l :: ls, c :: t => if l = c then stripLit ls t else none

/-- The elements of an array after the first position, given the parser of
the values one level down. -/
def parseElems (pv : GoString → Option (JSON × GoString)) :
    Nat → GoString → Option (List JSON × GoString)
  | 0, _ => none
  | n + 1, s =>
    match pv s with
    | none => none
    | some (v, r) =>
      match skipWS r with
      | c :: r1 =>
        if c.val = 0x2C then
          (parseElems pv n (skipWS r1)).map (fun p => (v :: p.1, p.2))
        else if c.val = 0x5D then some ([v], r1)
        else none
      | [] => none

/-- The members of an object from the opening quote of a key on, given the
parser of the values one level down. -/
def parseMembers (pv : GoString → Option (JSON × GoString)) :
    Nat → GoString → Option (List (GoString × JSON) × GoString)
  | 0, _ => none
  | n + 1, s =>
    match s with
    | [] => none
    | q :: r =>
      if q.val ≠ 0x22 then none
      else
        match readString r.length r with
        | none => none
        | some (k, r1) =>
          match skipWS r1 with
          | [] => none
          | c1 :: r2 =>
            if c1.val ≠ 0x3A then none
            else
              match pv (skipWS r2) with
              | none => none
              | some (v, r3) =>
                match skipWS r3 with
                | [] => none
                | c2 :: r4 =>
                  if c2.val = 0x2C then
                    (parseMembers pv n (skipWS r4)).map (fun p => ((k, v) :: p.1, p.2))
                  else if c2.val = 0x7D then some ([(k, v)], r4)
                  else none

/-- One JSON value at the head of the input and the input after it; the
first argument bounds the nesting depth. -/
def parseValue : Nat → GoString → Option (JSON × GoString)
  | 0, _ => none
  | d + 1, s =>
    match s with
    | [] => none
    | c :: r =>
      if c.val = 0x22 then (readString r.length r).map (fun p => (JSON.str p.1, p.2))
      else if c.val = 0x7B then
        match skipWS r with
        | [] => none
        | c1 :: r1 =>
          if c1.val = 0x7D then some (JSON.obj [], r1)
          else (parseMembers (parseValue d) r.length (c1 :: r1)).map (fun p => (JSON.obj p.1, p.2))
      else if c.val = 0x5B then
        match skipWS r with
        | [] => none
        | c1 :: r1 =>
          if c1.val = 0x5D then some (JSON.arr [], r1)
          else (parseElems (parseValue d) r.length (c1 :: r1)).map (fun p => (JSON.arr p.1, p.2))
      else if c.val = 0x74 then (stripLit (B "true") s).map (fun r1 => (JSON.bool true, r1))
      else if c.val = 0x66 then (stripLit (B "false") s).map (fun r1 => (JSON.bool false, r1))
      else if c.val = 0x6E then (stripLit (B "null") s).map (fun r1 => (JSON.null, r1))
      else (scanNumber s).map (fun p => (JSON.num p.1, p.2))

/-- A whole JSON text: one value between optional white space, as
`checkValid` accepts. No nesting is deeper than the input is long, so the
depth bound never cuts a text short. -/
def parseJSON (data : GoString) : Option JSON :=
  match parseValue (data.length + 1) (skipWS data) with
  | none => none
  | some (v, r) => if skipWS r = [] then some v else none

/-! ## `json.Unmarshal` at type `Organic` -/

/-- The errors `json.Unmarshal` returns. -/
inductive UnmarshalError where
  | syntaxError : UnmarshalError
  | typeError : UnmarshalError
deriving DecidableEq

/-- The fields of `Organic`, in declaration order. -/
inductive Field where
  | shipment | timestamp | location | holder
deriving DecidableEq

/-- The JSON tag of a field. -/
def Field.name : Field → GoString
  | .shipment => B "shipment"
  | .timestamp => B "timestamp"
  | .location => B "location"
  | .holder => B "holder"

/-- All fields, in declaration order. -/
def fields : List Field := [.shipment, .timestamp, .location, .holder]

/-- A byte with bit 5 cleared (`b & caseMask`). -/
def clearCase (b : Byte) : Nat := if (b.val / 32) % 2 = 1 then b.val - 32 else b.val

/-- ASCII letter. -/
def isLetter (b : Byte) : Bool :=
  (decide (0x41 ≤ b.val) && decide (b.val ≤ 0x5A)) || (decide (0x61 ≤ b.val) && decide (b.val ≤ 0x7A))

/-- The case-folding comparison of an ASCII field name with an object key
(`equalFoldRight` / `asciiEqualFold` of `encoding/json`): letters match in
either case, `s` also matches U+017F and `k` also matches U+212A. -/
def equalFold : GoString → GoString → Bool
  | [], [] => true
  | [], _ :: _ => false
  | _ :: _, [] => false
  | sb :: s, tb :: t =>
    if tb.val < 0x80 then
      (decide (sb = tb) || (isLetter sb && decide (clearCase sb = clearCase tb))) && equalFold s t
    else if (clearCase sb = 0x53 ∧ (DecodeRune (tb :: t)).1 = 0x17F)
        ∨ (clearCase sb = 0x4B ∧ (DecodeRune (tb :: t)).1 = 0x212A) then
      equalFold s (t.drop ((DecodeRune (tb :: t)).2 - 1))
    else false

/-- The field an object key is stored into: an exact match of the tag, else
the first match under case folding. -/
def findField (key : GoString) : Option Field :=
  match fields.find? (fun f => decide (f.name = key)) with
  | some f => some f
  | none => fields.find? (fun f => equalFold f.name key)

/-- Assignment to one field. -/
def Organic.set (o : Organic) : Field → GoString → Organic
  | .shipment, v => { o with Shipment := v }
  | .timestamp, v => { o with Timestamp := v }
  | .location, v => { o with Location := v }
  | .holder, v => { o with Holder := v }

/-- Decodes the members of an object into the struct, in order; a JSON
string is stored, `null` and unknown keys are skipped, any other value for a
known key is a type error, of which the first is kept. -/
def decodeMembers : List (GoString × JSON) → Organic → Option UnmarshalError →
    Organic × Option UnmarshalError
  | [], o, err => (o, err)
  | (k, v) :: ms, o, err =>
    match findField k with
    | none => decodeMembers ms o err
    | some f =>
      match v with
      | .str s => decodeMembers ms (o.set f s) err
      | .null => decodeMembers ms o err
      | _ => decodeMembers ms o (if err.isSome then err else some .typeError)

/-- The call `json.Unmarshal(data, &organic)`: the struct afterwards and the
returned error. Text that is not valid JSON leaves the struct untouched. -/
def Unmarshal (data : GoString) (organic : Organic) : Organic × Option UnmarshalError :=
  match parseJSON data with
  | none => (organic, some .syntaxError)
  | some (.obj ms) => decodeMembers ms organic none
  | some .null => (organic, none)
  | some _ => (organic, some .typeError)

/-! ## The world state behind `shim.ChaincodeStubInterface` -/

/-- The ledger as the chaincode sees it: the key/value pairs of the world
state, and the host's verdict on each write (`putFails key value` is true when
`PutState` reports an error for that write). The library `shim` is not part of
the repository; its three calls follow the store contract `get`, `put`,
`scanRange`. -/
structure Stub where
  state : List (GoString × GoString)
  putFails : GoString → GoString → Bool

/-- The value stored under a key, if any. -/
def lookupKV (key : GoString) : List (GoString × GoString) → Option GoString
  | [] => none
  | (k, v) :: rest => if k = key then some v else lookupKV key rest

/-- Writes a pair, replacing the value of an existing key and keeping the
pairs in key order. -/
def insertKV (key value : GoString) : List (GoString × GoString) → List (GoString × GoString)
  | [] => [(key, value)]
  | (k, v) :: rest =>
    if k = key then (key, value) :: rest
    else if strLt key k then (key, value) :: (k, v) :: rest
    else (k, v) :: insertKV key value rest

/-- The call `APIstub.GetState(key)`: `none` is Go's `nil`, returned for a key
that holds nothing. -/
def GetState (stub : Stub) (key : GoString) : Option GoString := lookupKV key stub.state

/-- The call `APIstub.PutState(key, value)`: `none` is a non-nil error, and
then nothing is written. -/
def PutState (stub : Stub) (key value : GoString) : Option Stub :=
  if stub.putFails key value then none
  else some { stub with state := insertKV key value stub.state }

/-- The call `APIstub.GetStateByRange(startKey, endKey)` with non-empty
bounds: the pairs whose key `k` satisfies `startKey <= k < endKey`, in the
order of the world state. The store contract has no failure for a scan, so
the iterator is the list of its results and neither the call nor `Next`
returns an error. -/
def GetStateByRange (stub : Stub) (startKey endKey : GoString) : List (GoString × GoString) :=
  stub.state.filter (fun kv => !strLt kv.1 startKey && strLt kv.1 endKey)

/-- The keys of a world state are strictly increasing, as in a ledger. -/
def Ordered (state : List (GoString × GoString)) : Prop :=
  state.Pairwise (fun a b => strLt a.1 b.1 = true)

/-! ## The chaincode -/

/-- A `sc.Response`: `shim.Success(payload)` or `shim.Error(msg)`; a `nil`
payload is `none`. -/
inductive Response where
  | Success (payload : Option GoString) : Response
  | Error (msg : GoString) : Response
deriving DecidableEq

/-- The handler `queryOrganic`; the error of `GetState` is dropped, as in the
source. -/
def queryOrganic (stub : Stub) (args : List GoString) : Response × Stub :=
  match args with
  | [key] =>
    match GetState stub key with
    | none => (.Error (B "Could not locate tuna"), stub)
    | some organicAsBytes => (.Success (some organicAsBytes), stub)
  | _ => (.Error (B "Incorrect number of arguments. Expecting 1"), stub)

/-- The slice literal `organic` of `initLedger`. -/
def seedOrganic : List Organic :=
  [ { Shipment := B "923F", Location := B "67.0006, -70.5476", Timestamp := B "1504054225", Holder := B "Miriam" },
    { Shipment := B "M83T", Location := B "91.2395, -49.4594", Timestamp := B "1504057825", Holder := B "Dave" },
    { Shipment := B "T012", Location := B "58.0148, 59.01391", Timestamp := B "1493517025", Holder := B "Igor" },
    { Shipment := B "P490", Location := B "-45.0945, 0.7949", Timestamp := B "1496105425", Holder := B "Amalea" },
    { Shipment := B "S439", Location := B "-107.6043, 19.5003", Timestamp := B "1493512301", Holder := B "Rafa" },
    { Shipment := B "J205", Location := B "-155.2304, -15.8723", Timestamp := B "1494117101", Holder := B "Shen" },
    { Shipment := B "S22L", Location := B "103.8842, 22.1277", Timestamp := B "1496104301", Holder := B "Leila" },
    { Shipment := B "EI89", Location := B "-132.3207, -34.0983", Timestamp := B "1485066691", Holder := B "Yuan" },
    { Shipment := B "129R", Location := B "153.0054, 12.6429", Timestamp := B "1485153091", Holder := B "Carlo" },
    { Shipment := B "49W4", Location := B "51.9435, 8.2735", Timestamp := B "1487745091", Holder := B "Fatima" } ]

/-- The loop `for i < len(organic)` of `initLedger`, from index `i` on; the
error of `PutState` is dropped, as in the source. The first argument bounds
the number of iterations. -/
def initLedgerLoop (organic : List Organic) : Nat → Nat → Stub → Stub
  | 0, _, stub => stub
  | fuel + 1, i, stub =>
    match organic.get? i with
    | none => stub
    | some o =>
      let organicAsBytes := Marshal o
      match PutState stub (Itoa (i + 1)) organicAsBytes with
      | none => initLedgerLoop organic fuel (i + 1) stub
      | some stub1 => initLedgerLoop organic fuel (i + 1) stub1

/-- The handler `initLedger`; the `fmt.Println` calls have no effect on the
response or the world state. -/
def initLedger (stub : Stub) : Response × Stub :=
  (.Success none, initLedgerLoop seedOrganic seedOrganic.length 0 stub)

/-- The handler `recordOrganic`. -/
def recordOrganic (stub : Stub) (args : List GoString) : Response × Stub :=
  match args with
  | [a0, a1, a2, a3, a4] =>
    let organic : Organic := { Shipment := a1, Location := a2, Timestamp := a3, Holder := a4 }
    let organicAsBytes := Marshal organic
    match PutState stub a0 organicAsBytes with
    | none => (.Error (B "Failed to record product record: " ++ a0), stub)
    | some stub1 => (.Success none, stub1)
  | _ => (.Error (B "Incorrect number of arguments. Expecting 5"), stub)

/-- The loop `for resultsIterator.HasNext()` of `queryAllOrganic`: the
remaining results, the flag `bArrayMemberAlreadyWritten` and the buffer. -/
def queryAllLoop : List (GoString × GoString) → Bool → GoString → GoString
  | [], _, buffer => buffer
  | (key, value) :: results, bArrayMemberAlreadyWritten, buffer =>
    let buffer1 := if bArrayMemberAlreadyWritten = true then buffer ++ B "," else buffer
    let buffer2 := buffer1 ++ B "\x7b\"Key\":" ++ B "\"" ++ key ++ B "\""
    let buffer3 := buffer2 ++ B ", \"Record\":" ++ value ++ B "\x7d"
    queryAllLoop results true buffer3

/-- The handler `queryAllOrganic`. Its two `err != nil` returns belong to the
scan, which does not fail here; `defer resultsIterator.Close()` and the
`fmt.Printf` have no effect on the response or the world state. -/
def queryAllOrganic (stub : Stub) : Response × Stub :=
  let startKey := B "0"
  let endKey := B "999"
  let resultsIterator := GetStateByRange stub startKey endKey
  let buffer := queryAllLoop resultsIterator false (B "[")
  (.Success (some (buffer ++ B "]")), stub)

/-- The handler `changeOrganicHolder`; the error of `json.Unmarshal` is
dropped, as in the source. -/
def changeOrganicHolder (stub : Stub) (args : List GoString) : Response × Stub :=
  match args with
  | [a0, a1] =>
    match GetState stub a0 with
    | none => (.Error (B "Could not locate tuna"), stub)
    | some organicAsBytes =>
      let organic := (Unmarshal organicAsBytes Organic.zero).1
      let organic1 := { organic with Holder := a1 }
      let organicAsBytes1 := Marshal organic1
      match PutState stub a0 organicAsBytes1 with
      | none => (.Error (B "Failed to change organic holder: " ++ a0), stub)
      | some stub1 => (.Success none, stub1)
  | _ => (.Error (B "Incorrect number of arguments. Expecting 2"), stub)

/-- The method `Invoke`, on the function name and arguments that
`GetFunctionAndParameters` returns. -/
def Invoke (stub : Stub) (function : GoString) (args : List GoString) : Response × Stub :=
  if function = B "queryOrganic" then queryOrganic stub args
  else if function = B "initLedger" then initLedger stub
  else if function = B "recordOrganic" then recordOrganic stub args
  else if function = B "queryAllOrganic" then queryAllOrganic stub
  else if function = B "changeOrganicHolder" then changeOrganicHolder stub args
  else (.Error (B "Invalid Smart Contract function name."), stub)

/-! ## Definitions used in the statements -/

/-- The string with every byte that belongs to no valid UTF-8 sequence
replaced by U+FFFD; the input length is the fuel. -/
def coerceLoop : Nat → GoString → GoString
  | 0, _ => []
  | _ + 1, [] => []
  | n + 1, b :: t =>
    if b.val < 0x80 then b :: coerceLoop n t
    else if (DecodeRune (b :: t)).2 = 1 then [0xEF, 0xBF, 0xBD] ++ coerceLoop n t
    else (b :: t).take (DecodeRune (b :: t)).2 ++ coerceLoop n (t.drop ((DecodeRune (b :: t)).2 - 1))

/-- The string coerced to valid UTF-8, as `json.Marshal` does. -/
def coerceUTF8 (s : GoString) : GoString := coerceLoop s.length s

/-- The JSON value of a marshalled record. -/
def Organic.toJSON (o : Organic) : JSON :=
  JSON.obj [(B "shipment", JSON.str o.Shipment), (B "timestamp", JSON.str o.Timestamp),
    (B "location", JSON.str o.Location), (B "holder", JSON.str o.Holder)]

/-- The record with each field coerced to valid UTF-8. -/
def Organic.coerce (o : Organic) : Organic :=
  ⟨coerceUTF8 o.Shipment, coerceUTF8 o.Timestamp, coerceUTF8 o.Location, coerceUTF8 o.Holder⟩

/-- All four fields are valid UTF-8. -/
def Organic.valid (o : Organic) : Bool :=
  utf8Valid o.Shipment && utf8Valid o.Timestamp && utf8Valid o.Location && utf8Valid o.Holder

/-- The pure effect of the loop of `initLedger` on the world state when every
write succeeds. -/
def seedLoop (organic : List Organic) : Nat → Nat → List (GoString × GoString) →
    List (GoString × GoString)
  | 0, _, st => st
  | fuel + 1, i, st =>
    match organic.get? i with
    | none => st
    | some o => seedLoop organic fuel (i + 1) (insertKV (Itoa (i + 1)) (Marshal o) st)

/-- One entry of the array text: `{"Key":"<key>", "Record":<bytes>}`. -/
def entryText (kv : GoString × GoString) : GoString :=
  B "\x7b\"Key\":\"" ++ kv.1 ++ B "\", \"Record\":" ++ kv.2 ++ B "\x7d"

/-- Texts separated by commas. -/
def commaSep : List GoString → GoString
  | [] => []
  | [x] => x
  | x :: y :: rest => x ++ B "," ++ commaSep (y :: rest)

/-- The array text of a list of pairs: `[`, the comma-separated entries, `]`. -/
def arrayText (results : List (GoString × GoString)) : GoString :=
  B "[" ++ commaSep (results.map entryText) ++ B "]"

/-- The keys of the seeded records in the order of the world state. -/
def seedOrder : List Nat := [1, 10, 2, 3, 4, 5, 6, 7, 8, 9]

/-- The world state `initLedger` builds from the empty one: under the decimal
string of `i` the encoding of the `i`-th record of the seed list. -/
def seededState : List (GoString × GoString) :=
  seedOrder.map (fun i => (Itoa i, Marshal (seedOrganic.getD (i - 1) Organic.zero)))

/-! ## Lemmas and theorems -/

theorem isCont_iff (b : Byte) : isCont b = true ↔ 0x80 ≤ b.val ∧ b.val ≤ 0xBF := by
  simp [isCont]

/-- The three shapes of a multi-byte rune that `DecodeRune` accepts. -/
theorem DecodeRune_multi (b : Byte) (t : GoString) (hb : 0x80 ≤ b.val)
    (hs : (DecodeRune (b :: t)).2 ≠ 1) :
    (∃ s1 t1, t = s1 :: t1 ∧ DecodeRune (b :: t) = ((b.val % 32) * 64 + s1.val % 64, 2)
        ∧ 0xC2 ≤ b.val ∧ b.val < 0xE0 ∧ 0x80 ≤ s1.val ∧ s1.val ≤ 0xBF) ∨
    (∃ s1 s2 t1, t = s1 :: s2 :: t1
        ∧ DecodeRune (b :: t) = ((b.val % 16) * 4096 + (s1.val % 64) * 64 + s2.val % 64, 3)
        ∧ 0xE0 ≤ b.val ∧ b.val < 0xF0 ∧ (b.val = 0xE0 → 0xA0 ≤ s1.val) ∧ 0x80 ≤ s1.val
        ∧ (b.val = 0xED → s1.val ≤ 0x9F) ∧ s1.val ≤ 0xBF ∧ 0x80 ≤ s2.val ∧ s2.val ≤ 0xBF) ∨
    (∃ s1 s2 s3 t1, t = s1 :: s2 :: s3 :: t1
        ∧ DecodeRune (b :: t)
          = ((b.val % 8) * 262144 + (s1.val % 64) * 4096 + (s2.val % 64) * 64 + s3.val % 64, 4)
        ∧ 0xF0 ≤ b.val ∧ b.val < 0xF5 ∧ (b.val = 0xF0 → 0x90 ≤ s1.val) ∧ 0x80 ≤ s1.val
        ∧ (b.val = 0xF4 → s1.val ≤ 0x8F) ∧ s1.val ≤ 0xBF ∧ 0x80 ≤ s2.val ∧ s2.val ≤ 0xBF
        ∧ 0x80 ≤ s3.val ∧ s3.val ≤ 0xBF) := by
  have h1 : ¬ b.val < 0x80 := by omega
  by_cases h2 : b.val < 0xC2
  · exact absurd (by simp [DecodeRune, h1, h2]) hs
  by_cases h3 : b.val < 0xE0
  · match t, hs with
    | [], hs => exact absurd (by simp [DecodeRune, h1, h2, h3]) hs
    | s1 :: t1, hs =>
      by_cases hc : isCont s1 = true
      · have hc2 := (isCont_iff s1).1 hc
        exact Or.inl ⟨s1, t1, rfl, by simp [DecodeRune, h1, h2, h3, hc], by omega, h3, hc2.1, hc2.2⟩
      · exact absurd (by simp [DecodeRune, h1, h2, h3, hc]) hs
  by_cases h4 : b.val < 0xF0
  · match t, hs with
    | [], hs => exact absurd (by simp [DecodeRune, h1, h2, h3, h4]) hs
    | [_], hs => exact absurd (by simp [DecodeRune, h1, h2, h3, h4]) hs
    | s1 :: s2 :: t1, hs =>
      by_cases hc : (decide ((if b.val = 0xE0 then 0xA0 else 0x80) ≤ s1.val)
            && decide (s1.val ≤ (if b.val = 0xED then 0x9F else 0xBF))
            && isCont s2) = true
      · have e : DecodeRune (b :: s1 :: s2 :: t1)
            = ((b.val % 16) * 4096 + (s1.val % 64) * 64 + s2.val % 64, 3) := by
          simp only [DecodeRune, h1, h2, h3, h4, if_false, if_true, hc]
        simp only [Bool.and_eq_true, decide_eq_true_eq, isCont_iff] at hc
        obtain ⟨⟨c1, c2⟩, c3, c4⟩ := hc
        refine Or.inr (Or.inl ⟨s1, s2, t1, rfl, e, by omega, h4, ?_, ?_, ?_, ?_, c3, c4⟩)
        · intro h; rw [if_pos h] at c1; exact c1
        · split at c1 <;> omega
        · intro h; rw [if_pos h] at c2; exact c2
        · split at c2 <;> omega
      · exact absurd (by simp only [DecodeRune, h1, h2, h3, h4, if_false, if_true, hc]; simp) hs
  by_cases h5 : b.val < 0xF5
  · match t, hs with
    | [], hs => exact absurd (by simp [DecodeRune, h1, h2, h3, h4, h5]) hs
    | [_], hs => exact absurd (by simp [DecodeRune, h1, h2, h3, h4, h5]) hs
    | [_, _], hs => exact absurd (by simp [DecodeRune, h1, h2, h3, h4, h5]) hs
    | s1 :: s2 :: s3 :: t1, hs =>
      by_cases hc : (decide ((if b.val = 0xF0 then 0x90 else 0x80) ≤ s1.val)
            && decide (s1.val ≤ (if b.val = 0xF4 then 0x8F else 0xBF))
            && isCont s2 && isCont s3) = true
      · have e : DecodeRune (b :: s1 :: s2 :: s3 :: t1)
            = ((b.val % 8) * 262144 + (s1.val % 64) * 4096 + (s2.val % 64) * 64 + s3.val % 64, 4) := by
          simp only [DecodeRune, h1, h2, h3, h4, h5, if_false, if_true, hc]
        simp only [Bool.and_eq_true, decide_eq_true_eq, isCont_iff] at hc
        obtain ⟨⟨⟨c1, c2⟩, c3, c4⟩, c5, c6⟩ := hc
        refine Or.inr (Or.inr ⟨s1, s2, s3, t1, rfl, e, by omega, h5, ?_, ?_, ?_, ?_, c3, c4, c5, c6⟩)
        · intro h; rw [if_pos h] at c1; exact c1
        · split at c1 <;> omega
        · intro h; rw [if_pos h] at c2; exact c2
        · split at c2 <;> omega
      · exact absurd (by simp only [DecodeRune, h1, h2, h3, h4, h5, if_false, if_true, hc]; simp) hs
  · exact absurd (by simp [DecodeRune, h1, h2, h3, h4, h5]) hs

theorem ofNat_eq (n : Nat) (b : Byte) (h : n = b.val) : (Fin.ofNat n : Byte) = b := by
  apply Fin.ext
  show n % 256 = b.val
  omega

/-- Re-encoding a decoded multi-byte rune gives back the bytes it was read from. -/
theorem EncodeRune_DecodeRune (b : Byte) (t : GoString) (hb : 0x80 ≤ b.val)
    (hs : (DecodeRune (b :: t)).2 ≠ 1) :
    EncodeRune (DecodeRune (b :: t)).1 = (b :: t).take (DecodeRune (b :: t)).2 := by
  rcases DecodeRune_multi b t hb hs with ⟨s1, t1, rfl, e, h⟩ | ⟨s1, s2, t1, rfl, e, h⟩ |
    ⟨s1, s2, s3, t1, rfl, e, h⟩
  · rw [e]
    simp only [List.take_succ_cons, List.take_zero]
    unfold EncodeRune
    rw [if_neg (by omega), if_pos (by omega)]
    congr 1
    · exact ofNat_eq _ _ (by omega)
    · congr 1; exact ofNat_eq _ _ (by omega)
  · rw [e]
    simp only [List.take_succ_cons, List.take_zero]
    unfold EncodeRune
    rw [if_neg (by omega), if_neg (by omega), if_neg (by omega), if_pos (by omega)]
    congr 1
    · exact ofNat_eq _ _ (by omega)
    · congr 1
      · exact ofNat_eq _ _ (by omega)
      · congr 1; exact ofNat_eq _ _ (by omega)
  · rw [e]
    simp only [List.take_succ_cons, List.take_zero]
    unfold EncodeRune
    rw [if_neg (by omega), if_neg (by omega), if_neg (by omega), if_neg (by omega)]
    congr 1
    · exact ofNat_eq _ _ (by omega)
    · congr 1
      · exact ofNat_eq _ _ (by omega)
      · congr 1
        · exact ofNat_eq _ _ (by omega)
        · congr 1; exact ofNat_eq _ _ (by omega)

/-- The bytes after an accepted rune do not matter to `DecodeRune`. -/
theorem DecodeRune_take_append (b : Byte) (t more : GoString) (hb : 0x80 ≤ b.val)
    (hs : (DecodeRune (b :: t)).2 ≠ 1) :
    DecodeRune ((b :: t).take (DecodeRune (b :: t)).2 ++ more) = DecodeRune (b :: t) := by
  have h1 : ¬ b.val < 0x80 := by omega
  rcases DecodeRune_multi b t hb hs with ⟨s1, t1, rfl, e, h⟩ | ⟨s1, s2, t1, rfl, e, h⟩ |
    ⟨s1, s2, s3, t1, rfl, e, h⟩
  · rw [e]
    simp only [List.take_succ_cons, List.take_zero, List.cons_append, List.nil_append]
    have hc : isCont s1 = true := (isCont_iff s1).2 ⟨h.2.2.1, h.2.2.2⟩
    simp [DecodeRune, h1, hc, h.2.1, show ¬ b.val < 194 by omega]
  · rw [e]
    simp only [List.take_succ_cons, List.take_zero, List.cons_append, List.nil_append]
    rw [← e]
    simp only [DecodeRune, h1, if_false, show ¬ b.val < 194 by omega, show ¬ b.val < 224 by omega,
      show b.val < 240 from h.2.1, if_true]
  · rw [e]
    simp only [List.take_succ_cons, List.take_zero, List.cons_append, List.nil_append]
    rw [← e]
    simp only [DecodeRune]

/-- The length of the input covers an accepted rune. -/
theorem DecodeRune_size_le (b : Byte) (t : GoString) (hb : 0x80 ≤ b.val)
    (hs : (DecodeRune (b :: t)).2 ≠ 1) :
    2 ≤ (DecodeRune (b :: t)).2 ∧ (DecodeRune (b :: t)).2 - 1 ≤ t.length := by
  rcases DecodeRune_multi b t hb hs with ⟨s1, t1, rfl, e, _⟩ | ⟨s1, s2, t1, rfl, e, _⟩ |
    ⟨s1, s2, s3, t1, rfl, e, _⟩ <;> rw [e] <;> simp

theorem hexVal_hex (n : Nat) (h : n < 16) : hexVal (hex n) = some n := by
  interval_cases n <;> rfl

theorem readString_quote (k : Nat) (rest : GoString) :
    readString (k + 1) ((0x22 : Byte) :: rest) = some ([], rest) := by
  simp [readString, Fin.coe_ofNat_eq_mod]

theorem readString_ascii (k : Nat) (c : Byte) (X : GoString) (h1 : 0x20 ≤ c.val)
    (h2 : c.val < 0x80) (h3 : c.val ≠ 0x22) (h4 : c.val ≠ 0x5C) :
    readString (k + 1) (c :: X) = emit [c] (readString k X) := by
  simp [readString, Fin.coe_ofNat_eq_mod, h3, h4, show ¬ c.val < 0x20 by omega, h2]

theorem readString_multi (k : Nat) (c : Byte) (X : GoString) (h : 0x80 ≤ c.val) :
    readString (k + 1) (c :: X)
      = emit (EncodeRune (DecodeRune (c :: X)).1)
          (readString k (X.drop ((DecodeRune (c :: X)).2 - 1))) := by
  simp [readString, Fin.coe_ofNat_eq_mod, show c.val ≠ 0x22 by omega, show c.val ≠ 0x5C by omega,
    show ¬ c.val < 0x20 by omega, show ¬ c.val < 0x80 by omega]

theorem readString_esc (k : Nat) (e : Byte) (X : GoString) (h : e.val = 0x22 ∨ e.val = 0x5C) :
    readString (k + 1) ((0x5C : Byte) :: e :: X) = emit [e] (readString k X) := by
  rcases h with h | h <;> simp [readString, Fin.coe_ofNat_eq_mod, h]

theorem readString_esc_n (k : Nat) (X : GoString) :
    readString (k + 1) ((0x5C : Byte) :: (0x6E : Byte) :: X) = emit [0x0A] (readString k X) := by
  simp [readString, Fin.coe_ofNat_eq_mod]

theorem readString_esc_r (k : Nat) (X : GoString) :
    readString (k + 1) ((0x5C : Byte) :: (0x72 : Byte) :: X) = emit [0x0D] (readString k X) := by
  simp [readString, Fin.coe_ofNat_eq_mod]

theorem readString_esc_t (k : Nat) (X : GoString) :
    readString (k + 1) ((0x5C : Byte) :: (0x74 : Byte) :: X) = emit [0x09] (readString k X) := by
  simp [readString, Fin.coe_ofNat_eq_mod]

theorem readString_esc_u (k : Nat) (h1 h2 h3 h4 : Byte) (X : GoString) (rr : Nat)
    (hg : getu4 ((0x5C : Byte) :: (0x75 : Byte) :: h1 :: h2 :: h3 :: h4 :: X) = some rr)
    (hr : rr < 0xD800 ∨ 0xE000 ≤ rr) :
    readString (k + 1) ((0x5C : Byte) :: (0x75 : Byte) :: h1 :: h2 :: h3 :: h4 :: X)
      = emit (EncodeRune rr) (readString k X) := by
  have : ¬ (0xD800 ≤ rr ∧ rr < 0xE000) := by omega
  simp [readString, Fin.coe_ofNat_eq_mod, hg, this]

theorem escapeByte_eq (b : Byte) :
    escapeByte b =
      if b.val = 0x5C ∨ b.val = 0x22 then [0x5C, b]
      else if b.val = 0x0A then [0x5C, 0x6E]
      else if b.val = 0x0D then [0x5C, 0x72]
      else if b.val = 0x09 then [0x5C, 0x74]
      else [0x5C, 0x75, 0x30, 0x30, hex (b.val / 16), hex (b.val % 16)] := by
  unfold escapeByte; rfl

theorem getu4_u00 (a c : Nat) (ha : a < 16) (hc : c < 16) (X : GoString) :
    getu4 ((0x5C : Byte) :: (0x75 : Byte) :: (0x30 : Byte) :: (0x30 : Byte) :: hex a :: hex c :: X)
      = some (a * 16 + c) := by
  have h0 : hexVal (0x30 : Byte) = some 0 := rfl
  simp [getu4, Fin.coe_ofNat_eq_mod, h0, hexVal_hex a ha, hexVal_hex c hc]

theorem emit_some (bs s rest : GoString) : emit bs (some (s, rest)) = some (bs ++ s, rest) := rfl

theorem succ_of_pos (a k : Nat) (h : a + 1 ≤ k) : ∃ k1, k = k1 + 1 ∧ a ≤ k1 :=
  ⟨k - 1, by omega, by omega⟩

theorem DecodeRune_size_one (b : Byte) (t : GoString) (hb : 0x80 ≤ b.val)
    (h : (DecodeRune (b :: t)).2 = 1) : (DecodeRune (b :: t)).1 = RuneError := by
  have h1 : ¬ b.val < 0x80 := by omega
  rcases t with _ | ⟨s1, _ | ⟨s2, _ | ⟨s3, t3⟩⟩⟩ <;>
    simp only [DecodeRune, h1, if_false] at h ⊢ <;>
    split_ifs at h ⊢ <;> first | rfl | (exfalso; simp at h)

/-- Reading back an escaped string: the decoder returns the bytes the encoder
was given, coerced to valid UTF-8. -/
theorem readString_escapeLoop : ∀ (n : Nat) (s : GoString) (k : Nat) (rest : GoString),
    s.length ≤ n →
    (escapeLoop n s ++ (0x22 : Byte) :: rest).length ≤ k →
    readString k (escapeLoop n s ++ (0x22 : Byte) :: rest) = some (coerceLoop n s, rest) := by
  intro n
  induction n with
  | zero =>
    intro s k rest hn hk
    have : s = [] := List.length_eq_zero.1 (by omega)
    subst this
    simp only [escapeLoop, List.nil_append, List.length_cons] at hk ⊢
    obtain ⟨k1, rfl, _⟩ := succ_of_pos _ k hk
    exact readString_quote k1 rest
  | succ n ih =>
    intro s k rest hn hk
    cases s with
    | nil =>
      simp only [escapeLoop, List.nil_append, List.length_cons] at hk ⊢
      obtain ⟨k1, rfl, _⟩ := succ_of_pos _ k hk
      exact readString_quote k1 rest
    | cons b t =>
      have hlen : t.length ≤ n := by simpa using hn
      by_cases hb : b.val < 0x80
      · have hco : coerceLoop (n + 1) (b :: t) = b :: coerceLoop n t := by
          simp [coerceLoop, hb]
        rw [hco]
        by_cases hsafe : htmlSafe b = true
        · have e : escapeLoop (n + 1) (b :: t) = b :: escapeLoop n t := by
            simp [escapeLoop, hb, hsafe]
          rw [e] at hk ⊢
          simp only [List.cons_append, List.length_cons] at hk ⊢
          obtain ⟨k1, rfl, hk1⟩ := succ_of_pos _ k hk
          simp only [htmlSafe, Bool.and_eq_true, decide_eq_true_eq] at hsafe
          rw [readString_ascii k1 b _ (by omega) hb (by omega) (by omega),
            ih t k1 rest hlen hk1, emit_some]
          rfl
        · have e : escapeLoop (n + 1) (b :: t) = escapeByte b ++ escapeLoop n t := by
            simp [escapeLoop, hb, hsafe]
          rw [e, escapeByte_eq] at hk ⊢
          by_cases c1 : b.val = 0x5C ∨ b.val = 0x22
          · rw [if_pos c1] at hk ⊢
            simp only [List.cons_append, List.nil_append, List.length_cons] at hk ⊢
            obtain ⟨k1, rfl, hk1⟩ := succ_of_pos _ k hk
            rw [readString_esc k1 b _ (by omega),
              ih t k1 rest hlen (by omega), emit_some]
            rfl
          rw [if_neg c1] at hk ⊢
          by_cases c2 : b.val = 0x0A
          · rw [if_pos c2] at hk ⊢
            simp only [List.cons_append, List.nil_append, List.length_cons] at hk ⊢
            obtain ⟨k1, rfl, hk1⟩ := succ_of_pos _ k hk
            rw [readString_esc_n k1,
              ih t k1 rest hlen (by omega), emit_some]
            have : b = 0x0A := Fin.ext c2
            rw [this]; rfl
          rw [if_neg c2] at hk ⊢
          by_cases c3 : b.val = 0x0D
          · rw [if_pos c3] at hk ⊢
            simp only [List.cons_append, List.nil_append, List.length_cons] at hk ⊢
            obtain ⟨k1, rfl, hk1⟩ := succ_of_pos _ k hk
            rw [readString_esc_r k1,
              ih t k1 rest hlen (by omega), emit_some]
            have : b = 0x0D := Fin.ext c3
            rw [this]; rfl
          rw [if_neg c3] at hk ⊢
          by_cases c4 : b.val = 0x09
          · rw [if_pos c4] at hk ⊢
            simp only [List.cons_append, List.nil_append, List.length_cons] at hk ⊢
            obtain ⟨k1, rfl, hk1⟩ := succ_of_pos _ k hk
            rw [readString_esc_t k1,
              ih t k1 rest hlen (by omega), emit_some]
            have : b = 0x09 := Fin.ext c4
            rw [this]; rfl
          rw [if_neg c4] at hk ⊢
          simp only [List.cons_append, List.nil_append, List.length_cons] at hk ⊢
          obtain ⟨k1, rfl, hk1⟩ := succ_of_pos _ k hk
          have hg := getu4_u00 (b.val / 16) (b.val % 16) (by omega) (by omega)
            (escapeLoop n t ++ (0x22 : Byte) :: rest)
          rw [readString_esc_u k1 _ _ _ _ _ _ hg (by omega),
            ih t k1 rest hlen (by omega), emit_some]
          have hE : EncodeRune (b.val / 16 * 16 + b.val % 16) = [b] := by
            unfold EncodeRune
            rw [if_pos (by omega)]
            congr 1
            exact ofNat_eq _ _ (by omega)
          rw [hE]; rfl
      · have hb1 : 0x80 ≤ b.val := by omega
        by_cases hsz : (DecodeRune (b :: t)).2 = 1
        · have hc := DecodeRune_size_one b t hb1 hsz
          have hco : coerceLoop (n + 1) (b :: t) = [0xEF, 0xBF, 0xBD] ++ coerceLoop n t := by
            simp [coerceLoop, hb, hsz]
          have e : escapeLoop (n + 1) (b :: t)
              = [0x5C, 0x75, 0x66, 0x66, 0x66, 0x64] ++ escapeLoop n t := by
            simp only [escapeLoop, hb, if_false, hc, hsz, and_self, if_true]
            rfl
          rw [hco]
          rw [e] at hk ⊢
          simp only [List.cons_append, List.nil_append, List.length_cons] at hk ⊢
          obtain ⟨k1, rfl, hk1⟩ := succ_of_pos _ k hk
          have hg : getu4 ((0x5C : Byte) :: (0x75 : Byte) :: (0x66 : Byte) :: (0x66 : Byte)
              :: (0x66 : Byte) :: (0x64 : Byte) :: (escapeLoop n t ++ (0x22 : Byte) :: rest))
              = some 0xFFFD := rfl
          rw [readString_esc_u k1 _ _ _ _ _ _ hg (by omega), ih t k1 rest hlen (by omega),
            emit_some]
          rfl
        have hco : coerceLoop (n + 1) (b :: t) = (b :: t).take (DecodeRune (b :: t)).2
            ++ coerceLoop n (t.drop ((DecodeRune (b :: t)).2 - 1)) := by
          simp [coerceLoop, hb, hsz]
        rw [hco]
        obtain ⟨hs2, hsl⟩ := DecodeRune_size_le b t hb1 hsz
        have hlen1 : (t.drop ((DecodeRune (b :: t)).2 - 1)).length ≤ n := by
          rw [List.length_drop]; omega
        have hED := EncodeRune_DecodeRune b t hb1 hsz
        by_cases hsp : (DecodeRune (b :: t)).1 = 0x2028 ∨ (DecodeRune (b :: t)).1 = 0x2029
        · have e : escapeLoop (n + 1) (b :: t)
              = [0x5C, 0x75, 0x32, 0x30, 0x32, hex ((DecodeRune (b :: t)).1 % 16)]
                ++ escapeLoop n (t.drop ((DecodeRune (b :: t)).2 - 1)) := by
            have hne : ¬ ((DecodeRune (b :: t)).1 = RuneError ∧ (DecodeRune (b :: t)).2 = 1) :=
              fun h => hsz h.2
            simp only [escapeLoop, hb, if_false, hne, hsp, if_true]
            rfl
          rw [e] at hk ⊢
          simp only [List.cons_append, List.nil_append, List.length_cons] at hk ⊢
          obtain ⟨k1, rfl, hk1⟩ := succ_of_pos _ k hk
          have hg : getu4 ((0x5C : Byte) :: (0x75 : Byte) :: (0x32 : Byte) :: (0x30 : Byte)
              :: (0x32 : Byte) :: hex ((DecodeRune (b :: t)).1 % 16)
              :: (escapeLoop n (t.drop ((DecodeRune (b :: t)).2 - 1)) ++ (0x22 : Byte) :: rest))
              = some (DecodeRune (b :: t)).1 := by
            have h0 : hexVal (0x30 : Byte) = some 0 := rfl
            have h2 : hexVal (0x32 : Byte) = some 2 := rfl
            have h8 := hexVal_hex ((DecodeRune (b :: t)).1 % 16) (by omega)
            simp only [getu4, Fin.coe_ofNat_eq_mod, h0, h2, h8]
            rcases hsp with h | h <;> rw [h] <;> rfl
          rw [readString_esc_u k1 _ _ _ _ _ _ hg (by omega),
            ih _ k1 rest hlen1 (by omega), emit_some,
            hED]
        · have e : escapeLoop (n + 1) (b :: t)
              = (b :: t).take (DecodeRune (b :: t)).2
                ++ escapeLoop n (t.drop ((DecodeRune (b :: t)).2 - 1)) := by
            have hne : ¬ ((DecodeRune (b :: t)).1 = RuneError ∧ (DecodeRune (b :: t)).2 = 1) :=
              fun h => hsz h.2
            simp only [escapeLoop, hb, if_false, hne, hsp]
          rw [e] at hk ⊢
          obtain ⟨j, hj⟩ : ∃ j, (DecodeRune (b :: t)).2 = j + 1 :=
            ⟨(DecodeRune (b :: t)).2 - 1, by omega⟩
          have hD := DecodeRune_take_append b t
            (escapeLoop n (t.drop ((DecodeRune (b :: t)).2 - 1)) ++ (0x22 : Byte) :: rest) hb1 hsz
          rw [hj] at hk hD hED hlen1 hsl ⊢
          simp only [List.take_succ_cons, List.cons_append, List.append_assoc, List.length_cons,
            Nat.add_sub_cancel] at hk hD hED hlen1 hsl ⊢
          obtain ⟨k1, rfl, hk1⟩ := succ_of_pos _ k hk
          rw [readString_multi k1 b _ hb1, hD, hj]
          simp only [Nat.add_sub_cancel]
          have hdrop : List.drop j (List.take j t ++ (escapeLoop n (List.drop j t)
              ++ (0x22 : Byte) :: rest)) = escapeLoop n (List.drop j t) ++ (0x22 : Byte) :: rest := by
            rw [List.drop_append_of_le_length (by simp; omega)]
            simp [List.drop_take]
          rw [hdrop, ih _ k1 rest hlen1 (by simp at hk1 ⊢; omega), emit_some]
          rw [hED]
          simp

/-- Coercion leaves valid UTF-8 as it is. -/
theorem coerceLoop_valid : ∀ (n : Nat) (s : GoString) (m : Nat),
    s.length ≤ n → utf8ValidLoop m s = true → coerceLoop n s = s := by
  intro n
  induction n with
  | zero =>
    intro s m hn _
    have : s = [] := List.length_eq_zero.1 (by omega)
    subst this
    rfl
  | succ n ih =>
    intro s m hn hv
    cases s with
    | nil => rfl
    | cons b t =>
      cases m with
      | zero => simp [utf8ValidLoop] at hv
      | succ m =>
        have hlen : t.length ≤ n := by simpa using hn
        by_cases hb : b.val < 0x80
        · have hv1 : utf8ValidLoop m t = true := by simpa [utf8ValidLoop, hb] using hv
          simp [coerceLoop, hb, ih t m hlen hv1]
        · have hsz : (DecodeRune (b :: t)).2 ≠ 1 := by
            intro h; simp [utf8ValidLoop, hb, h] at hv
          have hv1 : utf8ValidLoop m (t.drop ((DecodeRune (b :: t)).2 - 1)) = true := by
            simpa [utf8ValidLoop, hb, hsz] using hv
          obtain ⟨hs2, hsl⟩ := DecodeRune_size_le b t (by omega) hsz
          have hlen1 : (t.drop ((DecodeRune (b :: t)).2 - 1)).length ≤ n := by
            rw [List.length_drop]; omega
          obtain ⟨j, hj⟩ : ∃ j, (DecodeRune (b :: t)).2 = j + 1 :=
            ⟨(DecodeRune (b :: t)).2 - 1, by omega⟩
          simp only [coerceLoop, hb, if_false, hsz, ih _ m hlen1 hv1]
          rw [hj]
          simp

theorem coerceUTF8_valid (s : GoString) (h : utf8Valid s = true) : coerceUTF8 s = s :=
  coerceLoop_valid s.length s s.length (le_refl _) h

/-- A string that needs no escaping and is valid UTF-8 is read back as it stands. -/
theorem readString_plain (key rest : GoString) (k : Nat)
    (h1 : escapeLoop key.length key = key) (h2 : utf8Valid key = true)
    (hk : (key ++ (0x22 : Byte) :: rest).length ≤ k) :
    readString k (key ++ (0x22 : Byte) :: rest) = some (key, rest) := by
  have := readString_escapeLoop key.length key k rest (le_refl _) (by rw [h1]; exact hk)
  rwa [h1, coerceLoop_valid key.length key key.length (le_refl _) h2] at this

theorem skipWS_cons (c : Byte) (t : GoString) (h : isSpace c = false) : skipWS (c :: t) = c :: t := by
  simp [skipWS, h]

/-- A string value written by the encoder parses to the string it encodes. -/
theorem parseValue_encodeString (d : Nat) (s rest : GoString) :
    parseValue (d + 1) ((0x22 : Byte) :: (escapeLoop s.length s ++ (0x22 : Byte) :: rest))
      = some (JSON.str (coerceUTF8 s), rest) := by
  have h := readString_escapeLoop s.length s _ rest (le_refl _) (le_refl _)
  simp only [List.length_append, List.length_cons] at h
  simp [parseValue, Fin.coe_ofNat_eq_mod, h, coerceUTF8]

/-- One member `"key":"value",` followed by a further member. -/
theorem parseMembers_comma (d n : Nat) (key s more : GoString)
    (h1 : escapeLoop key.length key = key) (h2 : utf8Valid key = true) :
    parseMembers (parseValue (d + 1)) (n + 1)
        ((0x22 : Byte) :: (key ++ (0x22 : Byte) :: (0x3A : Byte) :: (0x22 : Byte)
          :: (escapeLoop s.length s ++ (0x22 : Byte) :: (0x2C : Byte) :: (0x22 : Byte) :: more)))
      = (parseMembers (parseValue (d + 1)) n ((0x22 : Byte) :: more)).map
          (fun p => ((key, JSON.str (coerceUTF8 s)) :: p.1, p.2)) := by
  have hk := readString_plain key ((0x3A : Byte) :: (0x22 : Byte)
          :: (escapeLoop s.length s ++ (0x22 : Byte) :: (0x2C : Byte) :: (0x22 : Byte) :: more)) _
          h1 h2 (le_refl _)
  have hv := parseValue_encodeString d s ((0x2C : Byte) :: (0x22 : Byte) :: more)
  rw [parseMembers]
  simp only [Fin.coe_ofNat_eq_mod, ne_eq, hk]
  simp [skipWS, isSpace, Fin.coe_ofNat_eq_mod, hv]

/-- The last member `"key":"value"}` of an object. -/
theorem parseMembers_last (d n : Nat) (key s more : GoString)
    (h1 : escapeLoop key.length key = key) (h2 : utf8Valid key = true) :
    parseMembers (parseValue (d + 1)) (n + 1)
        ((0x22 : Byte) :: (key ++ (0x22 : Byte) :: (0x3A : Byte) :: (0x22 : Byte)
          :: (escapeLoop s.length s ++ (0x22 : Byte) :: (0x7D : Byte) :: more)))
      = some ([(key, JSON.str (coerceUTF8 s))], more) := by
  have hk := readString_plain key ((0x3A : Byte) :: (0x22 : Byte)
          :: (escapeLoop s.length s ++ (0x22 : Byte) :: (0x7D : Byte) :: more)) _
          h1 h2 (le_refl _)
  have hv := parseValue_encodeString d s ((0x7D : Byte) :: more)
  rw [parseMembers]
  simp only [Fin.coe_ofNat_eq_mod, ne_eq, hk]
  simp [skipWS, isSpace, Fin.coe_ofNat_eq_mod, hv]

/-- The text of `Marshal`, byte by byte around the four encoded fields. -/
theorem Marshal_eq (o : Organic) :
    Marshal o = (0x7B : Byte) :: (0x22 : Byte) :: (B "shipment" ++ (0x22 : Byte) :: (0x3A : Byte)
      :: (0x22 : Byte) :: (escapeLoop o.Shipment.length o.Shipment ++ (0x22 : Byte) :: (0x2C : Byte)
      :: (0x22 : Byte) :: (B "timestamp" ++ (0x22 : Byte) :: (0x3A : Byte)
      :: (0x22 : Byte) :: (escapeLoop o.Timestamp.length o.Timestamp ++ (0x22 : Byte) :: (0x2C : Byte)
      :: (0x22 : Byte) :: (B "location" ++ (0x22 : Byte) :: (0x3A : Byte)
      :: (0x22 : Byte) :: (escapeLoop o.Location.length o.Location ++ (0x22 : Byte) :: (0x2C : Byte)
      :: (0x22 : Byte) :: (B "holder" ++ (0x22 : Byte) :: (0x3A : Byte)
      :: (0x22 : Byte) :: (escapeLoop o.Holder.length o.Holder ++ [(0x22 : Byte), (0x7D : Byte)])))))))) := by
  have e1 : B "\x7b\"shipment\":" = (0x7B : Byte) :: (0x22 : Byte) :: (B "shipment" ++ [(0x22 : Byte), (0x3A : Byte)]) := rfl
  have e2 : B ",\"timestamp\":" = (0x2C : Byte) :: (0x22 : Byte) :: (B "timestamp" ++ [(0x22 : Byte), (0x3A : Byte)]) := rfl
  have e3 : B ",\"location\":" = (0x2C : Byte) :: (0x22 : Byte) :: (B "location" ++ [(0x22 : Byte), (0x3A : Byte)]) := rfl
  have e4 : B ",\"holder\":" = (0x2C : Byte) :: (0x22 : Byte) :: (B "holder" ++ [(0x22 : Byte), (0x3A : Byte)]) := rfl
  have e5 : B "\x7d" = [(0x7D : Byte)] := rfl
  simp only [Marshal, encodeString, e1, e2, e3, e4, e5, List.cons_append, List.append_assoc,
    List.nil_append, List.singleton_append]

/-- An object whose first member follows the brace at once. -/
theorem parseValue_obj (d : Nat) (r : GoString) :
    parseValue (d + 1) ((0x7B : Byte) :: (0x22 : Byte) :: r)
      = (parseMembers (parseValue d) (r.length + 1) ((0x22 : Byte) :: r)).map
          (fun p => (JSON.obj p.1, p.2)) := by
  rw [parseValue]
  simp [skipWS, isSpace, Fin.coe_ofNat_eq_mod]

/-- The four members of a marshalled record. -/
theorem parseMembers_Marshal (d N : Nat) (o : Organic) (rest : GoString) (hN : 4 ≤ N) :
    parseMembers (parseValue (d + 1)) N
      ((0x22 : Byte) :: (B "shipment" ++ (0x22 : Byte) :: (0x3A : Byte)
      :: (0x22 : Byte) :: (escapeLoop o.Shipment.length o.Shipment ++ (0x22 : Byte) :: (0x2C : Byte)
      :: (0x22 : Byte) :: (B "timestamp" ++ (0x22 : Byte) :: (0x3A : Byte)
      :: (0x22 : Byte) :: (escapeLoop o.Timestamp.length o.Timestamp ++ (0x22 : Byte) :: (0x2C : Byte)
      :: (0x22 : Byte) :: (B "location" ++ (0x22 : Byte) :: (0x3A : Byte)
      :: (0x22 : Byte) :: (escapeLoop o.Location.length o.Location ++ (0x22 : Byte) :: (0x2C : Byte)
      :: (0x22 : Byte) :: (B "holder" ++ (0x22 : Byte) :: (0x3A : Byte)
      :: (0x22 : Byte) :: (escapeLoop o.Holder.length o.Holder
          ++ (0x22 : Byte) :: (0x7D : Byte) :: rest)))))))))
      = some ([(B "shipment", JSON.str (coerceUTF8 o.Shipment)),
          (B "timestamp", JSON.str (coerceUTF8 o.Timestamp)),
          (B "location", JSON.str (coerceUTF8 o.Location)),
          (B "holder", JSON.str (coerceUTF8 o.Holder))], rest) := by
  obtain ⟨n, rfl⟩ : ∃ n, N = n + 4 := ⟨N - 4, by omega⟩
  rw [parseMembers_comma d (n + 3) (B "shipment") o.Shipment _ rfl rfl,
    parseMembers_comma d (n + 2) (B "timestamp") o.Timestamp _ rfl rfl,
    parseMembers_comma d (n + 1) (B "location") o.Location _ rfl rfl,
    parseMembers_last d n (B "holder") o.Holder _ rfl rfl]
  rfl

/-- A marshalled record at the head of the input parses to its JSON value. -/
theorem parseValue_Marshal (d : Nat) (o : Organic) (rest : GoString) :
    parseValue (d + 2) (Marshal o ++ rest) = some (o.coerce.toJSON, rest) := by
  rw [Marshal_eq]
  simp only [List.cons_append, List.append_assoc, List.nil_append]
  rw [parseValue_obj, parseMembers_Marshal d _ o rest _]
  · rfl
  · have : (B "shipment").length = 8 := rfl
    simp only [List.length_append, List.length_cons, this]
    omega

theorem Organic.coerce_valid (o : Organic) (ho : o.valid = true) : o.coerce = o := by
  simp only [Organic.valid, Bool.and_eq_true] at ho
  obtain ⟨⟨⟨v1, v2⟩, v3⟩, v4⟩ := ho
  simp [Organic.coerce, coerceUTF8_valid, v1, v2, v3, v4]

theorem parseJSON_Marshal (o : Organic) : parseJSON (Marshal o) = some o.coerce.toJSON := by
  have hlen : ∃ d, (Marshal o).length + 1 = d + 2 := by
    rw [Marshal_eq]; exact ⟨_, rfl⟩
  obtain ⟨d, hd⟩ := hlen
  have hsk : skipWS (Marshal o) = Marshal o := by
    rw [Marshal_eq]; exact skipWS_cons _ _ (by rfl)
  unfold parseJSON
  rw [hsk, hd]
  have := parseValue_Marshal d o []
  rw [List.append_nil] at this
  rw [this]
  rfl

/-- Decoding an encoded record gives the record coerced to valid UTF-8,
without error, whatever the struct held before. -/
theorem Unmarshal_Marshal_coerce (o o0 : Organic) :
    Unmarshal (Marshal o) o0 = (o.coerce, none) := by
  unfold Unmarshal
  rw [parseJSON_Marshal]
  rfl

/-- Round trip of the codec on records whose fields are valid UTF-8. -/
theorem Unmarshal_Marshal (o o0 : Organic) (ho : o.valid = true) :
    Unmarshal (Marshal o) o0 = (o, none) := by
  rw [Unmarshal_Marshal_coerce, Organic.coerce_valid o ho]

theorem lookupKV_insertKV_same (k v : GoString) (st : List (GoString × GoString)) :
    lookupKV k (insertKV k v st) = some v := by
  induction st with
  | nil => simp [insertKV, lookupKV]
  | cons p st ih =>
    obtain ⟨k1, v1⟩ := p
    by_cases h1 : k1 = k
    · simp [insertKV, lookupKV, h1]
    · by_cases h2 : strLt k k1 = true
      · simp [insertKV, lookupKV, h1, h2]
      · simp [insertKV, lookupKV, h1, h2, ih]

theorem lookupKV_insertKV_other (k k1 v : GoString) (st : List (GoString × GoString))
    (h : k1 ≠ k) : lookupKV k1 (insertKV k v st) = lookupKV k1 st := by
  induction st with
  | nil => simp [insertKV, lookupKV, Ne.symm h]
  | cons p st ih =>
    obtain ⟨k2, v2⟩ := p
    by_cases h1 : k2 = k
    · subst h1
      simp [insertKV, lookupKV, Ne.symm h]
    · by_cases h2 : strLt k k2 = true
      · simp [insertKV, lookupKV, h1, h2, Ne.symm h]
      · by_cases h3 : k2 = k1
        · subst h3
          simp [insertKV, lookupKV, h1, h2]
        · simp [insertKV, lookupKV, h1, h2, h3, ih]

theorem lookupKV_none_iff (k : GoString) (st : List (GoString × GoString)) :
    lookupKV k st = none ↔ ∀ kv ∈ st, kv.1 ≠ k := by
  induction st with
  | nil => simp [lookupKV]
  | cons p st ih =>
    obtain ⟨k1, v1⟩ := p
    by_cases h1 : k1 = k
    · simp [lookupKV, h1]
    · simp [lookupKV, h1, ih]

theorem PutState_ok (stub : Stub) (k v : GoString) (h : stub.putFails k v = false) :
    PutState stub k v = some { stub with state := insertKV k v stub.state } := by
  simp [PutState, h]

theorem initLedgerLoop_ok (organic : List Organic) :
    ∀ (fuel i : Nat) (stub : Stub), (∀ k v, stub.putFails k v = false) →
      initLedgerLoop organic fuel i stub
        = { stub with state := seedLoop organic fuel i stub.state } := by
  intro fuel
  induction fuel with
  | zero => intro i stub _; rfl
  | succ fuel ih =>
    intro i stub h
    simp only [initLedgerLoop, seedLoop]
    cases ho : organic.get? i with
    | none => rfl
    | some o =>
      simp only [PutState_ok stub _ _ (h _ _)]
      rw [ih (i + 1) _ (by simpa using h)]

/-- C3. `queryOrganic([k])` returns the error "Could not locate tuna" when the
store holds no value at `k` (in particular when no pair of the store has key
`k`), and otherwise succeeds with exactly the stored bytes; the store is left
as it was. -/
theorem queryOrganic_spec (stub : Stub) (k : GoString) :
    (GetState stub k = none →
      queryOrganic stub [k] = (Response.Error (B "Could not locate tuna"), stub)) ∧
    ((∀ kv ∈ stub.state, kv.1 ≠ k) →
      queryOrganic stub [k] = (Response.Error (B "Could not locate tuna"), stub)) ∧
    (∀ v, GetState stub k = some v →
      queryOrganic stub [k] = (Response.Success (some v), stub)) := by
  refine ⟨?_, ?_, ?_⟩
  · intro h; simp [queryOrganic, h]
  · intro h
    have : GetState stub k = none := (lookupKV_none_iff k stub.state).2 h
    simp [queryOrganic, this]
  · intro v h; simp [queryOrganic, h]

theorem queryOrganic_spec_witness :
    queryOrganic ⟨[], fun _ _ => false⟩ [B "7"]
        = (Response.Error (B "Could not locate tuna"), ⟨[], fun _ _ => false⟩) ∧
    queryOrganic ⟨[(B "7", B "\x7b\x7d")], fun _ _ => false⟩ [B "7"]
        = (Response.Success (some (B "\x7b\x7d")), ⟨[(B "7", B "\x7b\x7d")], fun _ _ => false⟩) :=
  ⟨(queryOrganic_spec ⟨[], fun _ _ => false⟩ (B "7")).1 rfl,
   (queryOrganic_spec ⟨[(B "7", B "\x7b\x7d")], fun _ _ => false⟩ (B "7")).2.2 (B "\x7b\x7d") (by decide)⟩

/-- C4. With an argument list whose length is not 5, `recordOrganic` returns
the error "Incorrect number of arguments. Expecting 5" and the store is the
one before the call: nothing is written. -/
theorem recordOrganic_arity (stub : Stub) (args : List GoString) (h : args.length ≠ 5) :
    recordOrganic stub args
      = (Response.Error (B "Incorrect number of arguments. Expecting 5"), stub) := by
  unfold recordOrganic
  split
  · simp at h
  · rfl

theorem recordOrganic_arity_witness :
    [B "1", B "T012", B "58.0148, 59.01391", B "1493517025"].length ≠ 5 ∧
    recordOrganic ⟨[], fun _ _ => false⟩ [B "1", B "T012", B "58.0148, 59.01391", B "1493517025"]
      = (Response.Error (B "Incorrect number of arguments. Expecting 5"), ⟨[], fun _ _ => false⟩) :=
  ⟨by decide, recordOrganic_arity _ _ (by decide)⟩

/-- C1 (amended). When the write succeeds and the four field arguments are
valid UTF-8, `recordOrganic([k, shipment, location, timestamp, holder])`
returns success, and `queryOrganic([k])` afterwards returns success with the
bytes `Marshal` wrote, which decode without error to the record built from
exactly those arguments (argument 2 the shipment, 3 the location, 4 the
timestamp, 5 the holder), whatever the store held at `k` before. -/
theorem recordOrganic_then_queryOrganic (stub : Stub)
    (k shipment location timestamp holder : GoString)
    (hput : stub.putFails k (Marshal ⟨shipment, timestamp, location, holder⟩) = false)
    (hs : utf8Valid shipment = true) (hl : utf8Valid location = true)
    (ht : utf8Valid timestamp = true) (hh : utf8Valid holder = true) :
    (recordOrganic stub [k, shipment, location, timestamp, holder]).1 = Response.Success none ∧
    (queryOrganic (recordOrganic stub [k, shipment, location, timestamp, holder]).2 [k]).1
      = Response.Success (some (Marshal ⟨shipment, timestamp, location, holder⟩)) ∧
    Unmarshal (Marshal ⟨shipment, timestamp, location, holder⟩) Organic.zero
      = (⟨shipment, timestamp, location, holder⟩, none) := by
  have hr : recordOrganic stub [k, shipment, location, timestamp, holder]
      = (Response.Success none,
          ⟨insertKV k (Marshal ⟨shipment, timestamp, location, holder⟩) stub.state,
            stub.putFails⟩) := by
    simp [recordOrganic, PutState_ok stub _ _ hput]
  refine ⟨by rw [hr], ?_, ?_⟩
  · rw [hr]
    simp [queryOrganic, GetState, lookupKV_insertKV_same]
  · exact Unmarshal_Marshal _ _ (by simp [Organic.valid, hs, hl, ht, hh])

theorem recordOrganic_then_queryOrganic_witness :
    (recordOrganic ⟨[(B "3", B "old")], fun _ _ => false⟩
        [B "3", B "T012", B "58.0148, 59.01391", B "1493517025", B "Igor"]).1
      = Response.Success none ∧
    (queryOrganic (recordOrganic ⟨[(B "3", B "old")], fun _ _ => false⟩
        [B "3", B "T012", B "58.0148, 59.01391", B "1493517025", B "Igor"]).2 [B "3"]).1
      = Response.Success (some (Marshal ⟨B "T012", B "1493517025", B "58.0148, 59.01391", B "Igor"⟩)) ∧
    Unmarshal (Marshal ⟨B "T012", B "1493517025", B "58.0148, 59.01391", B "Igor"⟩) Organic.zero
      = (⟨B "T012", B "1493517025", B "58.0148, 59.01391", B "Igor"⟩, none) :=
  recordOrganic_then_queryOrganic ⟨[(B "3", B "old")], fun _ _ => false⟩
    (B "3") (B "T012") (B "58.0148, 59.01391") (B "1493517025") (B "Igor") rfl
    (by decide) (by decide) (by decide) (by decide)

/-- C1 as stated fails: recorded with the shipment `"\xff"` (one byte, not
valid UTF-8), the record read back decodes to the shipment U+FFFD, not to the
argument. -/
theorem recordOrganic_invalid_utf8_not_restored :
    (recordOrganic ⟨[], fun _ _ => false⟩ [B "1", [0xFF], [], [], []]).1 = Response.Success none ∧
    (queryOrganic (recordOrganic ⟨[], fun _ _ => false⟩ [B "1", [0xFF], [], [], []]).2 [B "1"]).1
      = Response.Success (some
          (B "\x7b\"shipment\":\"\\ufffd\",\"timestamp\":\"\",\"location\":\"\",\"holder\":\"\"\x7d")) ∧
    Unmarshal (B "\x7b\"shipment\":\"\\ufffd\",\"timestamp\":\"\",\"location\":\"\",\"holder\":\"\"\x7d")
        Organic.zero = (⟨[0xEF, 0xBF, 0xBD], [], [], []⟩, none) ∧
    (⟨[0xEF, 0xBF, 0xBD], [], [], []⟩ : Organic) ≠ ⟨[0xFF], [], [], []⟩ := by
  decide

/-- C2 (amended). When key `k` holds the encoding of a record `r` whose
shipment, timestamp and location are valid UTF-8, `h` is valid UTF-8 and the
write succeeds, `changeOrganicHolder([k, h])` returns success and
`queryOrganic([k])` afterwards returns bytes that decode without error to the
record with the shipment, timestamp and location of `r` and the holder `h`. -/
theorem changeOrganicHolder_then_queryOrganic (stub : Stub) (k h : GoString) (r : Organic)
    (hk : GetState stub k = some (Marshal r))
    (hs : utf8Valid r.Shipment = true) (ht : utf8Valid r.Timestamp = true)
    (hl : utf8Valid r.Location = true) (hh : utf8Valid h = true)
    (hput : stub.putFails k (Marshal ⟨r.Shipment, r.Timestamp, r.Location, h⟩) = false) :
    (changeOrganicHolder stub [k, h]).1 = Response.Success none ∧
    (queryOrganic (changeOrganicHolder stub [k, h]).2 [k]).1
      = Response.Success (some (Marshal ⟨r.Shipment, r.Timestamp, r.Location, h⟩)) ∧
    Unmarshal (Marshal ⟨r.Shipment, r.Timestamp, r.Location, h⟩) Organic.zero
      = (⟨r.Shipment, r.Timestamp, r.Location, h⟩, none) := by
  have e : ({ (Unmarshal (Marshal r) Organic.zero).1 with Holder := h } : Organic)
      = ⟨r.Shipment, r.Timestamp, r.Location, h⟩ := by
    rw [Unmarshal_Marshal_coerce]
    simp [Organic.coerce, coerceUTF8_valid, hs, ht, hl]
  have hr : changeOrganicHolder stub [k, h]
      = (Response.Success none,
          ⟨insertKV k (Marshal ⟨r.Shipment, r.Timestamp, r.Location, h⟩) stub.state,
            stub.putFails⟩) := by
    simp only [changeOrganicHolder, hk, e, PutState_ok stub _ _ hput]
  refine ⟨by rw [hr], ?_, ?_⟩
  · rw [hr]
    simp [queryOrganic, GetState, lookupKV_insertKV_same]
  · exact Unmarshal_Marshal _ _ (by simp [Organic.valid, hs, hl, ht, hh])

theorem changeOrganicHolder_then_queryOrganic_witness :
    (changeOrganicHolder
        ⟨[(B "3", Marshal ⟨B "T012", B "1493517025", B "58.0148, 59.01391", B "Igor"⟩)],
          fun _ _ => false⟩ [B "3", B "NewOwner"]).1 = Response.Success none ∧
    (queryOrganic (changeOrganicHolder
        ⟨[(B "3", Marshal ⟨B "T012", B "1493517025", B "58.0148, 59.01391", B "Igor"⟩)],
          fun _ _ => false⟩ [B "3", B "NewOwner"]).2 [B "3"]).1
      = Response.Success (some
          (Marshal ⟨B "T012", B "1493517025", B "58.0148, 59.01391", B "NewOwner"⟩)) ∧
    Unmarshal (Marshal ⟨B "T012", B "1493517025", B "58.0148, 59.01391", B "NewOwner"⟩)
        Organic.zero
      = (⟨B "T012", B "1493517025", B "58.0148, 59.01391", B "NewOwner"⟩, none) :=
  changeOrganicHolder_then_queryOrganic
    ⟨[(B "3", Marshal ⟨B "T012", B "1493517025", B "58.0148, 59.01391", B "Igor"⟩)],
      fun _ _ => false⟩ (B "3") (B "NewOwner")
    ⟨B "T012", B "1493517025", B "58.0148, 59.01391", B "Igor"⟩ (by decide)
    (by decide) (by decide) (by decide) (by decide) rfl

/-- C2 as stated fails: with the new holder `"\xff"` (not valid UTF-8) the
record read back decodes to the holder U+FFFD, not to the argument. -/
theorem changeOrganicHolder_invalid_utf8_not_restored :
    GetState ⟨[(B "3", Marshal ⟨B "T012", B "1", B "x", B "Igor"⟩)], fun _ _ => false⟩ (B "3")
      = some (Marshal ⟨B "T012", B "1", B "x", B "Igor"⟩) ∧
    (changeOrganicHolder ⟨[(B "3", Marshal ⟨B "T012", B "1", B "x", B "Igor"⟩)], fun _ _ => false⟩
        [B "3", [0xFF]]).1 = Response.Success none ∧
    (queryOrganic (changeOrganicHolder
        ⟨[(B "3", Marshal ⟨B "T012", B "1", B "x", B "Igor"⟩)], fun _ _ => false⟩
        [B "3", [0xFF]]).2 [B "3"]).1
      = Response.Success (some
          (B "\x7b\"shipment\":\"T012\",\"timestamp\":\"1\",\"location\":\"x\",\"holder\":\"\\ufffd\"\x7d")) ∧
    (Unmarshal (B "\x7b\"shipment\":\"T012\",\"timestamp\":\"1\",\"location\":\"x\",\"holder\":\"\\ufffd\"\x7d")
        Organic.zero).1.Holder = [0xEF, 0xBF, 0xBD] ∧
    ([0xEF, 0xBF, 0xBD] : GoString) ≠ [0xFF] := by
  decide

theorem commaSep_cons (x : GoString) (xs : List GoString) :
    commaSep (x :: xs) = x ++ (xs.map (fun y => B "," ++ y)).flatten := by
  induction xs generalizing x with
  | nil => simp [commaSep]
  | cons y ys ih => simp [commaSep, ih y]

theorem entry_written (key value : GoString) :
    B "\x7b\"Key\":" ++ B "\"" ++ key ++ B "\"" ++ B ", \"Record\":" ++ value ++ B "\x7d"
      = entryText (key, value) := by
  have e1 : B "\x7b\"Key\":" ++ B "\"" = B "\x7b\"Key\":\"" := rfl
  have e2 : B "\"" ++ B ", \"Record\":" = B "\", \"Record\":" := rfl
  simp only [entryText, e1, List.append_assoc]
  rw [← List.append_assoc (B "\"") (B ", \"Record\":"), e2]

theorem queryAllLoop_cons (kv : GoString × GoString) (rest : List (GoString × GoString))
    (w : Bool) (buffer : GoString) :
    queryAllLoop (kv :: rest) w buffer
      = queryAllLoop rest true ((if w = true then buffer ++ B "," else buffer) ++ entryText kv) := by
  obtain ⟨key, value⟩ := kv
  rw [← entry_written]
  simp only [queryAllLoop, List.append_assoc]

theorem queryAllLoop_true (results : List (GoString × GoString)) (buffer : GoString) :
    queryAllLoop results true buffer
      = buffer ++ (results.map (fun kv => B "," ++ entryText kv)).flatten := by
  induction results generalizing buffer with
  | nil => simp [queryAllLoop]
  | cons kv rest ih =>
    rw [queryAllLoop_cons, ih]
    simp

theorem queryAllLoop_false (results : List (GoString × GoString)) (buffer : GoString) :
    queryAllLoop results false buffer = buffer ++ commaSep (results.map entryText) := by
  cases results with
  | nil => simp [queryAllLoop, commaSep]
  | cons kv rest =>
    rw [queryAllLoop_cons, queryAllLoop_true, List.map_cons, commaSep_cons]
    simp [List.map_map, Function.comp_def]

theorem queryAllOrganic_eq (stub : Stub) :
    queryAllOrganic stub
      = (Response.Success (some (arrayText (GetStateByRange stub (B "0") (B "999")))), stub) := by
  simp only [queryAllOrganic, queryAllLoop_false, arrayText]

/-- C7. `queryAllOrganic` returns success with exactly `[`, the
comma-separated entries `{"Key":"<key>", "Record":<stored bytes>}` and `]`,
one entry for each pair of the range scan from "0" to "999" in the order of
the scan, the stored bytes verbatim; the scan yields the pairs of the store
with `"0" <= key < "999"` in the order of the store, which is increasing key
order; an empty scan, in particular an empty store, gives `[]`. -/
theorem queryAllOrganic_text (stub : Stub) :
    queryAllOrganic stub
      = (Response.Success (some (arrayText (GetStateByRange stub (B "0") (B "999")))), stub) ∧
    (∀ kv, kv ∈ GetStateByRange stub (B "0") (B "999")
      ↔ kv ∈ stub.state ∧ strLt kv.1 (B "0") = false ∧ strLt kv.1 (B "999") = true) ∧
    (GetStateByRange stub (B "0") (B "999")).Sublist stub.state ∧
    (Ordered stub.state → Ordered (GetStateByRange stub (B "0") (B "999"))) ∧
    (GetStateByRange stub (B "0") (B "999") = [] →
      queryAllOrganic stub = (Response.Success (some (B "[]")), stub)) ∧
    (stub.state = [] → queryAllOrganic stub = (Response.Success (some (B "[]")), stub)) := by
  have h1 := queryAllOrganic_eq stub
  have h5 : GetStateByRange stub (B "0") (B "999") = [] →
      queryAllOrganic stub = (Response.Success (some (B "[]")), stub) := by
    intro h
    rw [h1, h]
    rfl
  refine ⟨h1, ?_, ?_, ?_, h5, ?_⟩
  · intro kv
    simp [GetStateByRange, List.mem_filter]
  · exact List.filter_sublist _
  · intro h
    exact List.Pairwise.sublist (List.filter_sublist _) h
  · intro h
    apply h5
    simp [GetStateByRange, h]

theorem queryAllOrganic_text_witness :
    queryAllOrganic ⟨[(B "1", B "\x7b\"a\":1\x7d"), (B "2", B "null"), (B "a", B "0")], fun _ _ => false⟩
      = (Response.Success (some
          (B "[\x7b\"Key\":\"1\", \"Record\":\x7b\"a\":1\x7d\x7d,\x7b\"Key\":\"2\", \"Record\":null\x7d]")),
          ⟨[(B "1", B "\x7b\"a\":1\x7d"), (B "2", B "null"), (B "a", B "0")], fun _ _ => false⟩) ∧
    Ordered (GetStateByRange
      ⟨[(B "1", B "\x7b\"a\":1\x7d"), (B "2", B "null"), (B "a", B "0")], fun _ _ => false⟩
      (B "0") (B "999")) ∧
    queryAllOrganic ⟨[], fun _ _ => false⟩
      = (Response.Success (some (B "[]")), ⟨[], fun _ _ => false⟩) :=
  ⟨(queryAllOrganic_text _).1,
   (queryAllOrganic_text
      ⟨[(B "1", B "\x7b\"a\":1\x7d"), (B "2", B "null"), (B "a", B "0")], fun _ _ => false⟩).2.2.2.1
      (by simp only [Ordered]; decide),
   (queryAllOrganic_text ⟨[], fun _ _ => false⟩).2.2.2.2.2 rfl⟩

/-- C9. `Invoke` is the routing table: on each of the five names it is the
handler of that name, result and store alike, and on every other name (the
comparison is exact, so also on a name that differs only in case) it returns
the error "Invalid Smart Contract function name." and leaves the store as it
was. -/
theorem Invoke_routes (stub : Stub) (function : GoString) (args : List GoString) :
    (function = B "queryOrganic" → Invoke stub function args = queryOrganic stub args) ∧
    (function = B "initLedger" → Invoke stub function args = initLedger stub) ∧
    (function = B "recordOrganic" → Invoke stub function args = recordOrganic stub args) ∧
    (function = B "queryAllOrganic" → Invoke stub function args = queryAllOrganic stub) ∧
    (function = B "changeOrganicHolder" →
      Invoke stub function args = changeOrganicHolder stub args) ∧
    (function ≠ B "queryOrganic" → function ≠ B "initLedger" → function ≠ B "recordOrganic" →
      function ≠ B "queryAllOrganic" → function ≠ B "changeOrganicHolder" →
      Invoke stub function args
        = (Response.Error (B "Invalid Smart Contract function name."), stub)) := by
  refine ⟨?_, ?_, ?_, ?_, ?_, ?_⟩
  · intro h; subst h; simp [Invoke]
  · intro h; subst h
    rw [Invoke, if_neg (by decide), if_pos rfl]
  · intro h; subst h
    rw [Invoke, if_neg (by decide), if_neg (by decide), if_pos rfl]
  · intro h; subst h
    rw [Invoke, if_neg (by decide), if_neg (by decide), if_neg (by decide), if_pos rfl]
  · intro h; subst h
    rw [Invoke, if_neg (by decide), if_neg (by decide), if_neg (by decide), if_neg (by decide),
      if_pos rfl]
  · intro h1 h2 h3 h4 h5
    rw [Invoke, if_neg h1, if_neg h2, if_neg h3, if_neg h4, if_neg h5]

theorem Invoke_routes_witness :
    Invoke ⟨[(B "3", B "x")], fun _ _ => false⟩ (B "queryOrganic") [B "3"]
      = queryOrganic ⟨[(B "3", B "x")], fun _ _ => false⟩ [B "3"] ∧
    Invoke ⟨[(B "3", B "x")], fun _ _ => false⟩ (B "QueryOrganic") [B "3"]
      = (Response.Error (B "Invalid Smart Contract function name."),
          ⟨[(B "3", B "x")], fun _ _ => false⟩) :=
  ⟨(Invoke_routes _ _ _).1 rfl,
   (Invoke_routes ⟨[(B "3", B "x")], fun _ _ => false⟩ (B "QueryOrganic") [B "3"]).2.2.2.2.2
     (by decide) (by decide) (by decide) (by decide) (by decide)⟩

/-- C10 (amended). When key `k` holds bytes whose decoding reports an error,
`changeOrganicHolder([k, h])` goes on with the struct the failed decoding
left (the zero record when the bytes are not JSON at all): if the write
succeeds it returns success and `k` then holds the encoding of that struct
with holder `h`; if the write fails it returns the error "Failed to change
organic holder: <k>" and the store is as before. -/
theorem changeOrganicHolder_decode_error (stub : Stub) (k h bytes : GoString)
    (hk : GetState stub k = some bytes) (herr : (Unmarshal bytes Organic.zero).2 ≠ none) :
    (stub.putFails k (Marshal { (Unmarshal bytes Organic.zero).1 with Holder := h }) = false →
      (changeOrganicHolder stub [k, h]).1 = Response.Success none ∧
      GetState (changeOrganicHolder stub [k, h]).2 k
        = some (Marshal { (Unmarshal bytes Organic.zero).1 with Holder := h })) ∧
    (stub.putFails k (Marshal { (Unmarshal bytes Organic.zero).1 with Holder := h }) = true →
      changeOrganicHolder stub [k, h]
        = (Response.Error (B "Failed to change organic holder: " ++ k), stub)) ∧
    (parseJSON bytes = none → (Unmarshal bytes Organic.zero).1 = Organic.zero) := by
  refine ⟨?_, ?_, ?_⟩
  · intro hput
    have hr : changeOrganicHolder stub [k, h]
        = (Response.Success none,
            ⟨insertKV k (Marshal { (Unmarshal bytes Organic.zero).1 with Holder := h }) stub.state,
              stub.putFails⟩) := by
      simp only [changeOrganicHolder, hk, PutState_ok stub _ _ hput]
    rw [hr]
    exact ⟨rfl, lookupKV_insertKV_same _ _ _⟩
  · intro hput
    simp only [changeOrganicHolder, hk, PutState, hput, if_true]
  · intro hp
    simp [Unmarshal, hp]

theorem changeOrganicHolder_decode_error_witness :
    (changeOrganicHolder ⟨[(B "3", B "not json")], fun _ _ => false⟩ [B "3", B "Bob"]).1
      = Response.Success none ∧
    GetState (changeOrganicHolder ⟨[(B "3", B "not json")], fun _ _ => false⟩ [B "3", B "Bob"]).2
        (B "3")
      = some (Marshal { (Unmarshal (B "not json") Organic.zero).1 with Holder := B "Bob" }) :=
  (changeOrganicHolder_decode_error ⟨[(B "3", B "not json")], fun _ _ => false⟩
    (B "3") (B "Bob") (B "not json") (by decide) (by decide)).1 rfl

/-- C10 as stated fails: with `not json` stored at "3", the call succeeds and
writes the zero-valued record with the new holder at "3". -/
theorem changeOrganicHolder_malformed_overwritten :
    GetState ⟨[(B "3", B "not json")], fun _ _ => false⟩ (B "3") = some (B "not json") ∧
    (Unmarshal (B "not json") Organic.zero).2 = some UnmarshalError.syntaxError ∧
    (changeOrganicHolder ⟨[(B "3", B "not json")], fun _ _ => false⟩ [B "3", B "Bob"]).1
      = Response.Success none ∧
    (changeOrganicHolder ⟨[(B "3", B "not json")], fun _ _ => false⟩ [B "3", B "Bob"]).2.state
      = [(B "3", B "\x7b\"shipment\":\"\",\"timestamp\":\"\",\"location\":\"\",\"holder\":\"Bob\"\x7d")] := by
  decide

theorem seedLoop_nil : seedLoop seedOrganic seedOrganic.length 0 [] = seededState := by
  decide

set_option maxRecDepth 100000

theorem parse_seeded :
    parseJSON (arrayText seededState)
      = some (JSON.arr (seedOrder.map (fun i =>
          JSON.obj [(B "Key", JSON.str (Itoa i)),
            (B "Record", (seedOrganic.getD (i - 1) Organic.zero).toJSON)]))) := by
  rfl

theorem initLedger_ok (stub : Stub) (hput : ∀ k v, stub.putFails k v = false) :
    initLedger stub
      = (Response.Success none,
          ⟨seedLoop seedOrganic seedOrganic.length 0 stub.state, stub.putFails⟩) := by
  simp only [initLedger, initLedgerLoop_ok seedOrganic _ _ stub hput]

theorem lookupKV_seedLoop (st : List (GoString × GoString)) (i : Nat) (h1 : 1 ≤ i)
    (h10 : i ≤ 10) :
    lookupKV (Itoa i) (seedLoop seedOrganic seedOrganic.length 0 st)
      = (seedOrganic.get? (i - 1)).map Marshal := by
  have e : seedOrganic.length = 10 := rfl
  rw [e]
  simp only [seedLoop, seedOrganic, List.get?, Nat.zero_add, Nat.reduceAdd]
  interval_cases i
  all_goals
    (repeat (first
      | rw [lookupKV_insertKV_same]
      | rw [lookupKV_insertKV_other _ _ _ _ (by decide)]))
  all_goals rfl

/-- C5. On a store whose writes succeed, `initLedger` returns success and
afterwards, for each `i` from 1 to 10, the key that is the decimal string of
`i` holds the encoding of the `i`-th record of the seed list; so
`queryOrganic(["3"])` returns the record with shipment "T012" and holder
"Igor" and `queryOrganic(["10"])` the record with holder "Fatima". -/
theorem initLedger_seeds (stub : Stub) (hput : ∀ k v, stub.putFails k v = false) :
    (initLedger stub).1 = Response.Success none ∧
    (∀ i, 1 ≤ i → i ≤ 10 → ∃ o, seedOrganic.get? (i - 1) = some o ∧
      GetState (initLedger stub).2 (Itoa i) = some (Marshal o)) ∧
    (queryOrganic (initLedger stub).2 [B "3"]).1
      = Response.Success (some
          (Marshal ⟨B "T012", B "1493517025", B "58.0148, 59.01391", B "Igor"⟩)) ∧
    Unmarshal (Marshal ⟨B "T012", B "1493517025", B "58.0148, 59.01391", B "Igor"⟩) Organic.zero
      = (⟨B "T012", B "1493517025", B "58.0148, 59.01391", B "Igor"⟩, none) ∧
    (queryOrganic (initLedger stub).2 [B "10"]).1
      = Response.Success (some
          (Marshal ⟨B "49W4", B "1487745091", B "51.9435, 8.2735", B "Fatima"⟩)) ∧
    Unmarshal (Marshal ⟨B "49W4", B "1487745091", B "51.9435, 8.2735", B "Fatima"⟩) Organic.zero
      = (⟨B "49W4", B "1487745091", B "51.9435, 8.2735", B "Fatima"⟩, none) := by
  rw [initLedger_ok stub hput]
  refine ⟨rfl, ?_, ?_, by decide, ?_, by decide⟩
  · intro i h1 h10
    have h := lookupKV_seedLoop stub.state i h1 h10
    have hs : ∃ o, seedOrganic.get? (i - 1) = some o := by
      interval_cases i <;> exact ⟨_, rfl⟩
    obtain ⟨o, ho⟩ := hs
    refine ⟨o, ho, ?_⟩
    rw [ho] at h
    exact h
  · have h := lookupKV_seedLoop stub.state 3 (by decide) (by decide)
    have e : Itoa 3 = B "3" := rfl
    rw [e] at h
    simp only [queryOrganic, GetState, h]
    rfl
  · have h := lookupKV_seedLoop stub.state 10 (by decide) (by decide)
    have e : Itoa 10 = B "10" := rfl
    rw [e] at h
    simp only [queryOrganic, GetState, h]
    rfl

theorem initLedger_seeds_witness :
    (initLedger ⟨[(B "3", B "old")], fun _ _ => false⟩).1 = Response.Success none ∧
    (queryOrganic (initLedger ⟨[(B "3", B "old")], fun _ _ => false⟩).2 [B "3"]).1
      = Response.Success (some
          (Marshal ⟨B "T012", B "1493517025", B "58.0148, 59.01391", B "Igor"⟩)) :=
  ⟨(initLedger_seeds ⟨[(B "3", B "old")], fun _ _ => false⟩ (fun _ _ => rfl)).1,
   (initLedger_seeds ⟨[(B "3", B "old")], fun _ _ => false⟩ (fun _ _ => rfl)).2.2.1⟩

/-- C6 (amended). From the empty store, when every write succeeds, `initLedger` leaves
exactly the ten pairs `seededState`: key the decimal string of `i`, value the
encoding of the `i`-th seed record, for `i` from 1 to 10, every key inside
the range from "0" to "999". `queryAllOrganic` then returns success with the
array text of these ten pairs, which is well-formed JSON: an array of ten
objects, each with `Key` the key and `Record` the JSON object of the record
stored under that key. -/
theorem queryAllOrganic_after_initLedger (stub : Stub) (hempty : stub.state = [])
    (hput : ∀ k v, stub.putFails k v = false) :
    (initLedger stub).2.state = seededState ∧
    seededState.length = 10 ∧
    (∀ i, 1 ≤ i → i ≤ 10 →
      (Itoa i, Marshal (seedOrganic.getD (i - 1) Organic.zero)) ∈ seededState) ∧
    (∀ kv ∈ seededState, strLt kv.1 (B "0") = false ∧ strLt kv.1 (B "999") = true) ∧
    (queryAllOrganic (initLedger stub).2).1 = Response.Success (some (arrayText seededState)) ∧
    parseJSON (arrayText seededState)
      = some (JSON.arr (seedOrder.map (fun i =>
          JSON.obj [(B "Key", JSON.str (Itoa i)),
            (B "Record", (seedOrganic.getD (i - 1) Organic.zero).toJSON)]))) ∧
    (seedOrder.map (fun i =>
          JSON.obj [(B "Key", JSON.str (Itoa i)),
            (B "Record", (seedOrganic.getD (i - 1) Organic.zero).toJSON)])).length = 10 := by
  have hst : (initLedger stub).2.state = seededState := by
    rw [initLedger_ok stub hput, hempty]
    exact seedLoop_nil
  refine ⟨hst, rfl, ?_, by decide, ?_, parse_seeded, rfl⟩
  · intro i h1 h10
    interval_cases i <;> decide
  · rw [queryAllOrganic_eq]
    have hr : GetStateByRange (initLedger stub).2 (B "0") (B "999") = seededState := by
      simp only [GetStateByRange, hst]
      decide
    rw [hr]

theorem queryAllOrganic_after_initLedger_witness :
    (initLedger ⟨[], fun _ _ => false⟩).2.state = seededState ∧
    (queryAllOrganic (initLedger ⟨[], fun _ _ => false⟩).2).1
      = Response.Success (some (arrayText seededState)) :=
  ⟨(queryAllOrganic_after_initLedger ⟨[], fun _ _ => false⟩ rfl (fun _ _ => rfl)).1,
   (queryAllOrganic_after_initLedger ⟨[], fun _ _ => false⟩ rfl (fun _ _ => rfl)).2.2.2.2.1⟩

/-- C6 as stated fails: on the empty store whose writes all fail, `initLedger`
drops the error of every `PutState` and still returns success, the store
stays empty, and `queryAllOrganic` right after it returns `[]`, an array of
no entries instead of ten. -/
theorem queryAllOrganic_after_failed_initLedger :
    (initLedger ⟨[], fun _ _ => true⟩).1 = Response.Success none ∧
    (initLedger ⟨[], fun _ _ => true⟩).2.state = [] ∧
    (queryAllOrganic (initLedger ⟨[], fun _ _ => true⟩).2).1
      = Response.Success (some (B "[]")) ∧
    (parseJSON (B "[]")).isSome = true ∧
    (match parseJSON (B "[]") with
      | some (JSON.arr elems) => elems.length
      | _ => 1) = 0 := by
  decide

/-- C8 at the failing input: after `recordOrganic` with the key `1"` on the
empty store, `queryAllOrganic` writes the key between quotes as it stands, and
the text it returns is not JSON. -/
theorem queryAllOrganic_key_not_escaped :
    (recordOrganic ⟨[], fun _ _ => false⟩ [B "1\"", B "s", B "l", B "t", B "h"]).1
      = Response.Success none ∧
    (queryAllOrganic
        (recordOrganic ⟨[], fun _ _ => false⟩ [B "1\"", B "s", B "l", B "t", B "h"]).2).1
      = Response.Success (some (B ("[\x7b\"Key\":\"1\"\", \"Record\":\x7b\"shipment\":\"s\","
          ++ "\"timestamp\":\"t\",\"location\":\"l\",\"holder\":\"h\"\x7d\x7d]"))) ∧
    (parseJSON (B ("[\x7b\"Key\":\"1\"\", \"Record\":\x7b\"shipment\":\"s\","
          ++ "\"timestamp\":\"t\",\"location\":\"l\",\"holder\":\"h\"\x7d\x7d]"))).isNone = true := by
  decide

end OrganicChaincode
